import Mathlib

/-!
# Tiles visualizer: geometry measurement, face classification, tile repeat

A shallow embedding of `src/components/RoomModel.jsx` (`calculateMeshArea`,
`calculateFloorDimensions`), of the handlers `handleSelect` and
`handleApplyDesign` in `src/App.js` (selection state, texture repeat, debug
information, face classification, material groups) and of the catalog of
`src/components/DesignModal.jsx`.  The work done in the callback of a texture
load is modelled at the moment the load is started.

Numbers.  Vertex data and dimensions are exact rationals.  A value computed by
the script is a `JsNum`: `some q` is the finite number `q`, `none` is a
non-finite result (`NaN`, `undefined` coerced to a number, or an infinity from
a division by zero).  The area measurement is given a second reading in
double precision (`calculateMeshAreaDouble`), in which every operation rounds
to a 53-bit significand; the other definitions do not round.
-/

namespace TilesVisualizer

/-- Value of a script number: `some q` is finite, `none` is `NaN`/infinite. -/
abbrev JsNum := Option ℚ

/-- Subtraction `a - b` of script numbers. -/
def jsSub (a b : JsNum) : JsNum := a.bind fun x => b.map fun y => x - y

/-- Addition `a + b` of script numbers. -/
def jsAdd (a b : JsNum) : JsNum := a.bind fun x => b.map fun y => x + y

/-- Multiplication `a * b` of script numbers; a non-finite operand gives a
non-finite result (an infinity, or `NaN` for an infinity times zero). -/
def jsMul (a b : JsNum) : JsNum := a.bind fun x => b.map fun y => x * y

/-- The function `Math.abs`. -/
def jsAbs (a : JsNum) : JsNum := a.map fun x => |x|

/-- Division `a / b` of a script number by a finite rational; division by
zero gives an infinity or `NaN`, hence `none`. -/
def jsDiv (a : JsNum) (b : ℚ) : JsNum := a.bind fun x => if b = 0 then none else some (x / b)

/-- The function `Math.ceil`. -/
def jsCeil (a : JsNum) : JsNum := a.map fun x => ((⌈x⌉ : ℤ) : ℚ)

/-- One entry of a three-component buffer attribute (finite data). -/
structure Vector3 where
  x : ℚ
  y : ℚ
  z : ℚ
deriving DecidableEq

/-- A `THREE.Vector3` built by the script; a component read out of range is
`undefined`, modelled by `none`. -/
structure JsVector3 where
  x : JsNum
  y : JsNum
  z : JsNum
deriving DecidableEq

/-- A `THREE.Vector2`. -/
structure JsVector2 where
  x : JsNum
  y : JsNum
deriving DecidableEq

/-- The method `Vector2.cross`: `this.x * v.y - this.y * v.x`. -/
def JsVector2.cross (u v : JsVector2) : JsNum := jsSub (jsMul u.x v.y) (jsMul u.y v.x)

/-- Axis-aligned box, `THREE.Box3`. -/
structure Box3 where
  min : Vector3
  max : Vector3
deriving DecidableEq

/-- The part of `THREE.BufferGeometry` the program reads. `position` and
`normal` are the vertex attributes (item size 3), `index` the optional
triangle index list, `boundingBox` the cached box (absent until computed). -/
structure BufferGeometry where
  isBufferGeometry : Bool
  position : List Vector3
  normal : Option (List Vector3)
  index : Option (List Nat)
  boundingBox : Option Box3

/-- The read `attribute.getX(i)` on an index list: the entry, or `undefined`. -/
def indexGetX (index : List Nat) (i : Nat) : Option Nat := index[i]?

/-- The read `attribute.getX(i)` on a vertex attribute, where the position
`i` may itself be `undefined`; out of range it is `undefined`. -/
def attrGetX (attr : List Vector3) (i : Option Nat) : JsNum := (i.bind fun k => attr[k]?).map Vector3.x

/-- The read `attribute.getY(i)` on a vertex attribute. -/
def attrGetY (attr : List Vector3) (i : Option Nat) : JsNum := (i.bind fun k => attr[k]?).map Vector3.y

/-- The read `attribute.getZ(i)` on a vertex attribute. -/
def attrGetZ (attr : List Vector3) (i : Option Nat) : JsNum := (i.bind fun k => attr[k]?).map Vector3.z

/-- The vertex `new THREE.Vector3().fromBufferAttribute(attr, i)`. -/
def fromBufferAttribute (attr : List Vector3) (i : Option Nat) : JsVector3 :=
  ⟨attrGetX attr i, attrGetY attr i, attrGetZ attr i⟩

/-- Body of both loops of `calculateMeshArea`: the area of the triangle
`a b c` projected onto the x,z plane. -/
def projectedTriangleArea (a b c : JsVector3) : JsNum :=
  let ab : JsVector2 := ⟨jsSub b.x a.x, jsSub b.z a.z⟩
  let ac : JsVector2 := ⟨jsSub c.x a.x, jsSub c.z a.z⟩
  jsDiv (jsAbs (ab.cross ac)) 2

/-- The loop `for (let i = 0; i < count; i += 3) area += ...` of
`calculateMeshArea`, with `vertexAt i` the vertex fetched for position `i` of
the loop.  `fuel` bounds the number of iterations. -/
def areaLoop (vertexAt : Nat → JsVector3) (count : Nat) : Nat → Nat → JsNum → JsNum
  | 0, _, area => area
  | fuel + 1, i, area =>
    if i < count then
      areaLoop vertexAt count fuel (i + 3)
        (jsAdd area (projectedTriangleArea (vertexAt i) (vertexAt (i + 1)) (vertexAt (i + 2))))
    else area

/-- The function `calculateMeshArea(mesh)` of `RoomModel.jsx`, on the mesh's
geometry, with every operation exact; `calculateMeshAreaDouble` is the same
function with every operation rounded to double precision. -/
def calculateMeshArea (geometry : BufferGeometry) : JsNum :=
  if geometry.isBufferGeometry then
    match geometry.index with
    | some index =>
      areaLoop (fun i => fromBufferAttribute geometry.position (indexGetX index i))
        index.length index.length 0 (some 0)
    | none =>
      areaLoop (fun i => fromBufferAttribute geometry.position (some i))
        geometry.position.length geometry.position.length 0 (some 0)
  else some 0

/-- Modelled from the spec: `geometry.computeBoundingBox()` belongs to the
rendering library and is not in the sources; the spec describes it as the
axis-aligned bounding box over all vertex positions.  The box of an empty
position list has infinite corners and is `none`. -/
def computeBoundingBox : List Vector3 → Option Box3
  | [] => none
  | p :: ps =>
    some (ps.foldl
      (fun b v => ⟨⟨min b.min.x v.x, min b.min.y v.y, min b.min.z v.z⟩,
                   ⟨max b.max.x v.x, max b.max.y v.y, max b.max.z v.z⟩⟩)
      ⟨p, p⟩)

/-- Result `{ width, length }` of `calculateFloorDimensions`. -/
structure FloorExtent where
  width : JsNum
  length : JsNum
deriving DecidableEq

/-- The function `calculateFloorDimensions(mesh)` of `RoomModel.jsx`: the cached box is
used when present, otherwise it is computed first. -/
def calculateFloorDimensions (geometry : BufferGeometry) : FloorExtent :=
  let boundingBox : Option Box3 :=
    match geometry.boundingBox with
    | some box => some box
    | none => computeBoundingBox geometry.position
  match boundingBox with
  | some box => ⟨some (box.max.x - box.min.x), some (box.max.z - box.min.z)⟩
  | none => ⟨none, none⟩

/-- The constructor `new THREE.Vector3(x, y, z)`: each parameter defaults to 0 when the
argument is `undefined` (the only `none` an attribute read produces). -/
def newVector3 (x y z : JsNum) : Vector3 := ⟨x.getD 0, y.getD 0, z.getD 0⟩

/-- The method `Vector3.add`. -/
def Vector3.add (u v : Vector3) : Vector3 := ⟨u.x + v.x, u.y + v.y, u.z + v.z⟩

/-- The method `Vector3.divideScalar`. -/
def Vector3.divideScalar (u : Vector3) (s : ℚ) : Vector3 := ⟨u.x / s, u.y / s, u.z / s⟩

/-- Average of the three vertex normals of the triangle whose first index
entry is at position `i`, as computed in the body of the classification loop
of `handleApplyDesign`. -/
def faceNormal (normals : List Vector3) (index : List Nat) (i : Nat) : Vector3 :=
  let a := indexGetX index i
  let b := indexGetX index (i + 1)
  let c := indexGetX index (i + 2)
  let normalA := newVector3 (attrGetX normals a) (attrGetY normals a) (attrGetZ normals a)
  let normalB := newVector3 (attrGetX normals b) (attrGetY normals b) (attrGetZ normals b)
  let normalC := newVector3 (attrGetX normals c) (attrGetY normals c) (attrGetZ normals c)
  ((((⟨0, 0, 0⟩ : Vector3).add normalA).add normalB).add normalC).divideScalar 3

/-- The loop `for (let i = 0; i < index.count; i += 3)` of `handleApplyDesign`
that fills `topFaces` and `sideFaces`.  `i` is always a multiple of 3, so the
pushed `i / 3` is the natural-number quotient.  `fuel` bounds the number of
iterations. -/
def classifyLoop (normals : List Vector3) (index : List Nat) :
    Nat → Nat → List Nat → List Nat → List Nat × List Nat
  | 0, _, topFaces, sideFaces => (topFaces, sideFaces)
  | fuel + 1, i, topFaces, sideFaces =>
    if i < index.length then
      if (faceNormal normals index i).y > 1 / 2 then
        classifyLoop normals index fuel (i + 3) (topFaces ++ [i / 3]) sideFaces
      else
        classifyLoop normals index fuel (i + 3) topFaces (sideFaces ++ [i / 3])
    else (topFaces, sideFaces)

/-- Face classification of the floor branch of `handleApplyDesign`, giving
`(topFaces, sideFaces)`.  `none` is the `TypeError` the script raises when it
reads `index.count` of a geometry without index, or a normal of a geometry
without normal attribute. -/
def classifyFaces (geometry : BufferGeometry) : Option (List Nat × List Nat) :=
  match geometry.index with
  | none => none
  | some index =>
    match geometry.normal with
    | some normals => some (classifyLoop normals index index.length 0 [] [])
    | none => if 0 < index.length then none else some ([], [])

/-- A material group `{ start, count, materialIndex }` of a geometry. -/
structure Group where
  start : Nat
  count : Nat
  materialIndex : Nat
deriving DecidableEq

/-- Group construction of the floor branch of `handleApplyDesign`:
`clearGroups()` followed by the two guarded `addGroup` calls. -/
def buildGroups (topFaces sideFaces : List Nat) : List Group :=
  let groups : List Group := []
  let groups :=
    if h : 0 < topFaces.length then groups ++ [⟨topFaces[0] * 3, topFaces.length * 3, 0⟩]
    else groups
  let groups :=
    if h : 0 < sideFaces.length then groups ++ [⟨sideFaces[0] * 3, sideFaces.length * 3, 1⟩]
    else groups
  groups

/-- Groups of the mesh that a floor apply puts in the scene: classification
followed by group construction. -/
def floorGroups (geometry : BufferGeometry) : Option (List Group) :=
  (classifyFaces geometry).map fun faces => buildGroups faces.1 faces.2

/-- Default repeats `MESH_REPEAT_MAP` of `App.js` (own keys).  The table is read
only under the values that `MESH_TYPE_MAP` gives. -/
def MESH_REPEAT_MAP (meshType : String) : Option (ℚ × ℚ) :=
  if meshType = "wall" then some (2, 2)
  else if meshType = "sofa" then some (1, 1)
  else if meshType = "curtain" then some (5, 5)
  else none

/-- Tile size `{ width, height }` of a design. -/
structure TileDimensions where
  width : ℚ
  height : ℚ
deriving DecidableEq

/-- A design option; `dimensions` is absent for designs without tile size. -/
structure Design where
  name : String
  image : String
  dimensions : Option TileDimensions
deriving DecidableEq

/-- The state `floorDimensions` of `App`. -/
structure FloorDimensions where
  width : ℚ
  length : ℚ
deriving DecidableEq

/-- The object passed to `setDebugInfo`. -/
structure DebugInfo where
  repeatX : JsNum
  repeatY : JsNum
  floorWidth : ℚ
  floorLength : ℚ
  tileWidth : ℚ
  tileHeight : ℚ
  tilesNeeded : JsNum
  totalArea : Option ℚ
  tilesArea : JsNum
  unitType : String
deriving DecidableEq

/-- Effect of the repeat selection of `handleApplyDesign`: the pair given to
`borderedTexture.repeat.set` and the debug information when it is set. -/
structure RepeatResult where
  repeatX : JsNum
  repeatY : JsNum
  debugInfo : Option DebugInfo
deriving DecidableEq

/-- The `else` branch of the repeat selection:
`MESH_REPEAT_MAP[meshType] || [1, 1]`, and no debug information. -/
def defaultRepeat (meshType : Option String) : RepeatResult :=
  let r := (meshType.bind MESH_REPEAT_MAP).getD (1, 1)
  { repeatX := some r.1, repeatY := some r.2, debugInfo := none }

/-- The `if` branch of the repeat selection, for a design with the tile size
`dimensions`. -/
def floorRepeat (dimensions : TileDimensions) (floorDimensions : FloorDimensions)
    (floorArea : Option ℚ) : RepeatResult :=
  let repeatX := jsDiv (some floorDimensions.width) dimensions.width
  let repeatY := jsDiv (some floorDimensions.length) dimensions.height
  let actualTiles := jsMul repeatX repeatY
  { repeatX := repeatX
    repeatY := repeatY
    debugInfo := some
      { repeatX := repeatX
        repeatY := repeatY
        floorWidth := floorDimensions.width
        floorLength := floorDimensions.length
        tileWidth := dimensions.width
        tileHeight := dimensions.height
        tilesNeeded := jsCeil actualTiles
        totalArea := floorArea
        tilesArea := jsMul (jsMul repeatX repeatY) (some (dimensions.width * dimensions.height))
        unitType := "feet" } }

/-- The statement `if (meshType === "floor" && design.dimensions &&
floorDimensions.width > 0) ... else ...` of `handleApplyDesign`.
`meshType` is the value looked up for the remembered mesh (`none` when the
lookup is `undefined`), `floorArea` the state of that name. -/
def selectRepeat (meshType : Option String) (design : Design)
    (floorDimensions : FloorDimensions) (floorArea : Option ℚ) : RepeatResult :=
  if meshType = some "floor" then
    match design.dimensions with
    | some dimensions =>
      if floorDimensions.width > 0 then floorRepeat dimensions floorDimensions floorArea
      else defaultRepeat meshType
    | none => defaultRepeat meshType
  else defaultRepeat meshType

/-- The two counts shown on the line `Needed: ... × ... tiles` of `App`:
`Math.ceil(debugInfo.repeatX)` and `Math.ceil(debugInfo.repeatY)`. -/
def displayedNeeded (info : DebugInfo) : JsNum × JsNum :=
  (jsCeil info.repeatX, jsCeil info.repeatY)

/-- The count shown on the line `Total Tiles: ... pieces` of `App`. -/
def displayedTotalTiles (info : DebugInfo) : JsNum := info.tilesNeeded

/-! ## Reference definitions, written from the specification -/

/-- Area of the projection of the triangle `A B C` onto the horizontal plane,
as the specification writes it: `|cross(B - A, C - A)| / 2` on x and z. -/
def specTriangleArea (A B C : Vector3) : ℚ :=
  |(B.x - A.x) * (C.z - A.z) - (B.z - A.z) * (C.x - A.x)| / 2

/-- Sum of `specTriangleArea` over each consecutive triple of a vertex list. -/
def specTriplesArea : List Vector3 → ℚ
  | A :: B :: C :: rest => specTriangleArea A B C + specTriplesArea rest
  | _ => 0

/-- The position list obtained by expanding an index list. -/
def expandIndex (position : List Vector3) (index : List Nat) : List Vector3 :=
  index.map fun k => position.getD k ⟨0, 0, 0⟩

/-- A triangle mesh: the vertices come in triples and every index entry
addresses a position. -/
def TriangleMesh (geometry : BufferGeometry) : Prop :=
  match geometry.index with
  | some index => index.length % 3 = 0 ∧ ∀ k ∈ index, k < geometry.position.length
  | none => geometry.position.length % 3 = 0

/-- The vertices of a mesh in drawing order: through the index list when the
mesh is indexed, the position list itself when it is not. -/
def triangleVertices (geometry : BufferGeometry) : List Vector3 :=
  match geometry.index with
  | some index => expandIndex geometry.position index
  | none => geometry.position

/-- The horizontal coordinates of a vertex. -/
def horizontal (v : Vector3) : ℚ × ℚ := (v.x, v.z)

/-- A finite vertex as the script holds it after a successful read. -/
def readVertex (v : Vector3) : JsVector3 := ⟨some v.x, some v.y, some v.z⟩

/-- Twice the signed area of the horizontal projection of `A B C`: positive
for a left turn, negative for a right turn. -/
def turn (A B C : Vector3) : ℚ :=
  (B.x - A.x) * (C.z - A.z) - (B.z - A.z) * (C.x - A.x)

/-- The quadrilateral `A B C D` is convex in the horizontal plane: its four
corners all turn the same way. -/
def ConvexQuad (A B C D : Vector3) : Prop :=
  (0 ≤ turn A B C ∧ 0 ≤ turn B C D ∧ 0 ≤ turn C D A ∧ 0 ≤ turn D A B)
  ∨ (turn A B C ≤ 0 ∧ turn B C D ≤ 0 ∧ turn C D A ≤ 0 ∧ turn D A B ≤ 0)

/-- The point `P` lies in the quadrilateral `A B C D`: it is on the same side
of the four edges. -/
def InsideQuad (A B C D P : Vector3) : Prop :=
  (0 ≤ turn A B P ∧ 0 ≤ turn B C P ∧ 0 ≤ turn C D P ∧ 0 ≤ turn D A P)
  ∨ (turn A B P ≤ 0 ∧ turn B C P ≤ 0 ∧ turn C D P ≤ 0 ∧ turn D A P ≤ 0)

/-- The quadrilateral as the two triangles `(A,B,C)`, `(A,C,D)`, not indexed. -/
def quadTwoTriangles (A B C D : Vector3) : BufferGeometry :=
  ⟨true, [A, B, C, A, C, D], none, none, none⟩

/-- The quadrilateral as the four triangles around `P`, not indexed. -/
def quadFourTriangles (A B C D P : Vector3) : BufferGeometry :=
  ⟨true, [A, B, P, B, C, P, C, D, P, D, A, P], none, none, none⟩

/-- The two-triangle mesh over the shared vertex list `A B C D P`. -/
def quadTwoTrianglesIndexed (A B C D P : Vector3) : BufferGeometry :=
  ⟨true, [A, B, C, D, P], none, some [0, 1, 2, 0, 2, 3], none⟩

/-- The four-triangle mesh over the shared vertex list `A B C D P`. -/
def quadFourTrianglesIndexed (A B C D P : Vector3) : BufferGeometry :=
  ⟨true, [A, B, C, D, P], none, some [0, 1, 4, 1, 2, 4, 2, 3, 4, 3, 0, 4], none⟩

/-- Corners `(0,0)`, `(1,0)`, `(1,1)`, `(0,1)` of the unit square at height `h`. -/
def unitSquareCorners (h : ℚ) : List Vector3 :=
  [⟨0, h, 0⟩, ⟨1, h, 0⟩, ⟨1, h, 1⟩, ⟨0, h, 1⟩]

/-- The two ways of cutting the square into two triangles, as index lists. -/
def unitSquareIndex (otherDiagonal : Bool) : List Nat :=
  if otherDiagonal then [0, 1, 3, 1, 2, 3] else [0, 1, 2, 0, 2, 3]

/-- The unit-square floor as 4 vertices and a 6-entry index list. -/
def unitSquareIndexed (h : ℚ) (otherDiagonal : Bool) : BufferGeometry :=
  ⟨true, unitSquareCorners h, none, some (unitSquareIndex otherDiagonal), none⟩

/-- The unit-square floor as 6 vertices without index list. -/
def unitSquareNonIndexed (h : ℚ) (otherDiagonal : Bool) : BufferGeometry :=
  ⟨true, expandIndex (unitSquareCorners h) (unitSquareIndex otherDiagonal), none, none, none⟩

/-- Number of iterations of the classification loop on an index list. -/
def triangleCount (index : List Nat) : Nat := (index.length + 2) / 3

/-- The test of the classification loop for triangle number `k`. -/
def isTop (normals : List Vector3) (index : List Nat) (k : Nat) : Bool :=
  decide ((faceNormal normals index (3 * k)).y > 1 / 2)

/-- The y component of the average of the three vertex normals of triangle
number `k` (index entries `3k`, `3k+1`, `3k+2`), as the specification
describes it. -/
def specFaceNormalY (normals : List Vector3) (index : List Nat) (k : Nat) : ℚ :=
  ((normals.getD (index.getD (3 * k) 0) ⟨0, 0, 0⟩).y
    + (normals.getD (index.getD (3 * k + 1) 0) ⟨0, 0, 0⟩).y
    + (normals.getD (index.getD (3 * k + 2) 0) ⟨0, 0, 0⟩).y) / 3

/-- A list of triangle numbers that is one contiguous ascending run. -/
def ContiguousRun (l : List Nat) : Prop := ∃ a, l = List.range' a l.length

/-- The index range `[start, start + count)` of a group contains `j`. -/
def Group.covers (g : Group) (j : Nat) : Prop := g.start ≤ j ∧ j < g.start + g.count

/-- Two groups have disjoint index ranges. -/
def Group.apart (g h : Group) : Prop :=
  g.start + g.count ≤ h.start ∨ h.start + h.count ≤ g.start

/-- Three triangles over nine vertices whose normals point up, sideways, up. -/
def interleavedFloor : BufferGeometry :=
  { isBufferGeometry := true
    position := [⟨0, 0, 0⟩, ⟨1, 0, 0⟩, ⟨0, 0, 1⟩, ⟨0, 0, 0⟩, ⟨1, 0, 0⟩, ⟨0, -1, 0⟩,
                 ⟨1, 0, 0⟩, ⟨1, 0, 1⟩, ⟨0, 0, 1⟩]
    normal := some [⟨0, 1, 0⟩, ⟨0, 1, 0⟩, ⟨0, 1, 0⟩, ⟨0, 0, 1⟩, ⟨0, 0, 1⟩, ⟨0, 0, 1⟩,
                    ⟨0, 1, 0⟩, ⟨0, 1, 0⟩, ⟨0, 1, 0⟩]
    index := some [0, 1, 2, 3, 4, 5, 6, 7, 8]
    boundingBox := none }

/-- Vertex normals of a flat floor: four times `(0,1,0)`. -/
def flatFloorNormals : List Vector3 := [⟨0, 1, 0⟩, ⟨0, 1, 0⟩, ⟨0, 1, 0⟩, ⟨0, 1, 0⟩]

/-- The indexed unit square at height 0 with upward normals. -/
def flatFloor : BufferGeometry :=
  ⟨true, unitSquareCorners 0, some flatFloorNormals, some (unitSquareIndex false), none⟩

/-- A floor design with tile size `width × height`. -/
def tileDesign (width height : ℚ) : Design :=
  ⟨"Marble", "/designs/QUINCY BROWN_F1.jpg", some ⟨width, height⟩⟩

/-! ## Selection state and design catalog -/

/-- Property names that every object written as a literal inherits from
`Object.prototype`; a read of one of them on such an object finds a function
(for `__proto__` the prototype object), not `undefined`. -/
def objectPrototypeKeys : List String :=
  ["constructor", "hasOwnProperty", "isPrototypeOf", "propertyIsEnumerable",
   "toLocaleString", "toString", "valueOf", "__proto__", "__defineGetter__",
   "__defineSetter__", "__lookupGetter__", "__lookupSetter__"]

/-- The keys written in the literal `MESH_TYPE_MAP` of `App.js`. -/
def MESH_TYPE_KEYS : List String :=
  ["Cube017", "Cube022", "Cube001", "Cube012", "G-__556050"]

/-- Value of the read `MESH_TYPE_MAP[name]`: `undefined`, one of the type
strings of the table, or the value inherited from `Object.prototype` under
the key `name`. -/
inductive MeshTypeValue where
  | undefined
  | type (s : String)
  | inherited (key : String)
deriving DecidableEq

/-- The read `MESH_TYPE_MAP[name]` on the table of `App.js`. -/
def MESH_TYPE_MAP (name : String) : MeshTypeValue :=
  if name = "Cube017" then .type "floor"
  else if name = "Cube022" then .type "wall"
  else if name = "Cube001" then .type "sofa"
  else if name = "Cube012" then .type "curtain"
  else if name = "G-__556050" then .type "curtain"
  else if name ∈ objectPrototypeKeys then .inherited name
  else .undefined

/-- Truthiness of the looked-up value, as tested by `if (meshType)`. -/
def MeshTypeValue.truthy : MeshTypeValue → Bool
  | .undefined => false
  | .type s => s != ""
  | .inherited _ => true

/-- The looked-up value as the apply path uses it: compared with the type
strings and used as key of `MESH_REPEAT_MAP`.  An inherited value is no
string and its string form is no key of that table, so it acts as
`undefined` there. -/
def MeshTypeValue.typeString : MeshTypeValue → Option String
  | .type s => some s
  | .undefined => none
  | .inherited _ => none

/-- The part of a `THREE.Mesh` that selection and apply read. -/
structure Mesh where
  name : String
  geometry : BufferGeometry

/-- The state `modal` of `App`; `opened` is the field `open`, and `none` is
`null`. -/
structure Modal where
  opened : Bool
  mesh : Option Mesh
  meshType : Option MeshTypeValue

/-- The state of `App` together with the ref `lastSelectedMesh`. -/
structure AppState where
  modal : Modal
  floorArea : Option ℚ
  floorDimensions : FloorDimensions
  debugInfo : Option DebugInfo
  lastSelectedMesh : Option Mesh

/-- The initial values given to `useState` and `useRef` in `App`. -/
def initialState : AppState :=
  { modal := ⟨false, none, none⟩
    floorArea := none
    floorDimensions := ⟨0, 0⟩
    debugInfo := none
    lastSelectedMesh := none }

/-- The handler `handleSelect(mesh)` of `App`. -/
def handleSelect (s : AppState) (mesh : Mesh) : AppState :=
  let meshType := MESH_TYPE_MAP mesh.name
  if meshType.truthy then
    { s with modal := ⟨true, some mesh, some meshType⟩, lastSelectedMesh := some mesh }
  else
    { s with modal := ⟨false, none, none⟩, lastSelectedMesh := none }

/-- A texture load started by `handleApplyDesign`: every change to a mesh is
made in the callback of such a load. -/
structure TextureRequest where
  design : Design
  mesh : Mesh

/-- The handler `handleApplyDesign(design)` of `App`, up to its return: the
new state and the texture load it started, if any.  Without remembered mesh
it returns at once. -/
def handleApplyDesign (s : AppState) (design : Design) : AppState × Option TextureRequest :=
  match s.lastSelectedMesh with
  | none => (s, none)
  | some mesh => ({ s with modal := ⟨false, none, none⟩ }, some ⟨design, mesh⟩)

/-- The repeat selection made in the callback of a texture load, for the type
looked up under the name of the remembered mesh and the state captured by the
handler. -/
def appliedRepeat (s : AppState) (request : TextureRequest) : RepeatResult :=
  selectRepeat (MESH_TYPE_MAP request.mesh.name).typeString request.design
    s.floorDimensions s.floorArea

/-- The catalog `DESIGN_OPTIONS` of `DesignModal.jsx` (own keys). -/
def DESIGN_OPTIONS (meshType : String) : List Design :=
  if meshType = "floor" then
    [⟨"Marble", "/designs/QUINCY BROWN_F1.jpg", some ⟨2, 2⟩⟩,
     ⟨"Wood", "/designs/tiles11.jpg", some ⟨2, 4⟩⟩,
     ⟨"Tiles", "/designs/tile1.jpg", some ⟨1, 1⟩⟩]
  else if meshType = "wall" then
    [⟨"Marble", "/designs/QUINCY BROWN_F1.jpg", none⟩,
     ⟨"Tiles", "/designs/tile1.jpg", none⟩,
     ⟨"Grey Paint", "/designs/wall-grey.jpg", none⟩]
  else if meshType = "sofa" then
    [⟨"Red Fabric", "/designs/sofa.png", none⟩,
     ⟨"Green Fabric", "/designs/sofa-green.jpg", none⟩,
     ⟨"Blue Fabric", "/designs/sofa-blue.jpg", none⟩]
  else if meshType = "curtain" then
    [⟨"Red Fabric", "/designs/sofa.png", none⟩,
     ⟨"Purple Curtain", "/designs/curtain-purple.jpg", none⟩,
     ⟨"Grey Curtain", "/designs/curtain-grey.jpg", none⟩]
  else []

/-- Every design of the catalog. -/
def catalogDesigns : List Design :=
  DESIGN_OPTIONS "floor" ++ DESIGN_OPTIONS "wall" ++ DESIGN_OPTIONS "sofa"
    ++ DESIGN_OPTIONS "curtain"

/-- The state in which a floor with footprint `width × length` (in feet) has
been measured and nothing is selected. -/
def measuredState (width length : ℚ) : AppState :=
  { initialState with floorArea := some (width * length), floorDimensions := ⟨width, length⟩ }

/-- A mesh with the given name over the flat floor geometry. -/
def meshNamed (name : String) : Mesh := ⟨name, flatFloor⟩

/-! ## Double-precision reading of the area measurement -/

/-- A finite double-precision number `mantissa × 2 ^ exponent`.  The exponent
is not bounded: overflow and subnormal numbers are outside this reading. -/
structure Double where
  mantissa : Int
  exponent : Int
deriving DecidableEq

/-- The rational value of a double. -/
def Double.toRat (d : Double) : ℚ := d.mantissa * (2 : ℚ) ^ d.exponent

/-- Number of binary digits of `n`, by halving at most `fuel` times. -/
def bitLength : Nat → Nat → Nat
  | 0, _ => 0
  | fuel + 1, n => if n = 0 then 0 else bitLength fuel (n / 2) + 1

/-- The double nearest to the exact value `m × 2 ^ e`: the significand is cut
to 53 bits, rounding to nearest with ties to the even significand. -/
def Double.round (m e : Int) : Double :=
  let n := m.natAbs
  let len := bitLength n n
  if len ≤ 53 then ⟨m, e⟩
  else
    let k := len - 53
    let q := n / 2 ^ k
    let r := n % 2 ^ k
    let half := 2 ^ (k - 1)
    let q' := if r < half then q else if half < r then q + 1 else if q % 2 = 0 then q else q + 1
    ⟨m.sign * q', e + k⟩

/-- Double addition: the exact sum, rounded. -/
def Double.add (a b : Double) : Double :=
  let e := min a.exponent b.exponent
  Double.round
    (a.mantissa * 2 ^ (a.exponent - e).toNat + b.mantissa * 2 ^ (b.exponent - e).toNat) e

/-- Double subtraction: the exact difference, rounded. -/
def Double.sub (a b : Double) : Double :=
  let e := min a.exponent b.exponent
  Double.round
    (a.mantissa * 2 ^ (a.exponent - e).toNat - b.mantissa * 2 ^ (b.exponent - e).toNat) e

/-- Double multiplication: the exact product, rounded. -/
def Double.mul (a b : Double) : Double :=
  Double.round (a.mantissa * b.mantissa) (a.exponent + b.exponent)

/-- The function `Math.abs` on a double (exact). -/
def Double.abs (a : Double) : Double := ⟨a.mantissa.natAbs, a.exponent⟩

/-- Division of a double by 2 (exact). -/
def Double.half (a : Double) : Double := ⟨a.mantissa, a.exponent - 1⟩

/-- A script number in double precision: `none` is `NaN` or `undefined`. -/
abbrev JsDouble := Option Double

/-- One entry of a position attribute holding doubles. -/
structure DoubleVector3 where
  x : Double
  y : Double
  z : Double
deriving DecidableEq

/-- The exact coordinates of a double-precision vertex. -/
def DoubleVector3.toVector3 (v : DoubleVector3) : Vector3 := ⟨v.x.toRat, v.y.toRat, v.z.toRat⟩

/-- The part of a geometry that `calculateMeshArea` reads, with positions in
double precision. -/
structure DoubleGeometry where
  isBufferGeometry : Bool
  position : List DoubleVector3
  index : Option (List Nat)

/-- The vertex `new THREE.Vector3().fromBufferAttribute(attr, i)` in double
precision; `none` when the read is out of range. -/
def fromBufferAttributeDouble (attr : List DoubleVector3) (i : Option Nat) :
    Option DoubleVector3 :=
  i.bind fun k => attr[k]?

/-- Body of both loops of `calculateMeshArea` in double precision:
`Math.abs(ab.cross(ac)) / 2` with `ab`, `ac` the differences on x and z, each
operation rounded. -/
def projectedTriangleAreaDouble (a b c : Option DoubleVector3) : JsDouble :=
  a.bind fun a => b.bind fun b => c.map fun c =>
    let abx := b.x.sub a.x
    let abz := b.z.sub a.z
    let acx := c.x.sub a.x
    let acz := c.z.sub a.z
    (((abx.mul acz).sub (abz.mul acx)).abs).half

/-- The loop `for (let i = 0; i < count; i += 3) area += ...` of
`calculateMeshArea` in double precision. -/
def areaLoopDouble (vertexAt : Nat → Option DoubleVector3) (count : Nat) :
    Nat → Nat → JsDouble → JsDouble
  | 0, _, area => area
  | fuel + 1, i, area =>
    if i < count then
      areaLoopDouble vertexAt count fuel (i + 3)
        (area.bind fun x =>
          (projectedTriangleAreaDouble (vertexAt i) (vertexAt (i + 1)) (vertexAt (i + 2))).map
            fun t => x.add t)
    else area

/-- The function `calculateMeshArea(mesh)` of `RoomModel.jsx` in double
precision. -/
def calculateMeshAreaDouble (geometry : DoubleGeometry) : JsDouble :=
  if geometry.isBufferGeometry then
    match geometry.index with
    | some index =>
      areaLoopDouble (fun i => fromBufferAttributeDouble geometry.position (indexGetX index i))
        index.length index.length 0 (some ⟨0, 0⟩)
    | none =>
      areaLoopDouble (fun i => fromBufferAttributeDouble geometry.position (some i))
        geometry.position.length geometry.position.length 0 (some ⟨0, 0⟩)
  else some ⟨0, 0⟩

/-- The horizontal point `(x, z)` at height 0 with double coordinates. -/
def floorPoint (x z : Double) : DoubleVector3 := ⟨x, ⟨0, 0⟩, z⟩

/-- Corners of a convex quadrilateral and a point inside it, all with
single-precision coordinates: `A = (2^-26, 3·2^-26)`, `B = (2, 5·2^-26)`,
`C = (3, 3)`, `D = (1/2, 3)`, `P = (2, 2)`. -/
def slantA : DoubleVector3 := floorPoint ⟨1, -26⟩ ⟨3, -26⟩

/-- The corner `B = (2, 5·2^-26)`. -/
def slantB : DoubleVector3 := floorPoint ⟨2, 0⟩ ⟨5, -26⟩

/-- The corner `C = (3, 3)`. -/
def slantC : DoubleVector3 := floorPoint ⟨3, 0⟩ ⟨3, 0⟩

/-- The corner `D = (1/2, 3)`. -/
def slantD : DoubleVector3 := floorPoint ⟨1, -1⟩ ⟨3, 0⟩

/-- The inner point `P = (2, 2)`. -/
def slantP : DoubleVector3 := floorPoint ⟨2, 0⟩ ⟨2, 0⟩

/-- The corner `(0, 0)` of the unit square, in double precision. -/
def unitA : DoubleVector3 := floorPoint ⟨0, 0⟩ ⟨0, 0⟩

/-- The corner `(1, 0)` of the unit square. -/
def unitB : DoubleVector3 := floorPoint ⟨1, 0⟩ ⟨0, 0⟩

/-- The corner `(1, 1)` of the unit square. -/
def unitC : DoubleVector3 := floorPoint ⟨1, 0⟩ ⟨1, 0⟩

/-- The corner `(0, 1)` of the unit square. -/
def unitD : DoubleVector3 := floorPoint ⟨0, 0⟩ ⟨1, 0⟩

/-- The point whose coordinates are the doubles written `0.2` and `0.4`:
`3602879701896397 × 2^-54` and `3602879701896397 × 2^-53`. -/
def unitP : DoubleVector3 := floorPoint ⟨3602879701896397, -54⟩ ⟨3602879701896397, -53⟩

/-- The quadrilateral `A B C D` as two triangles, in double precision. -/
def doubleTwoTriangles (A B C D : DoubleVector3) : DoubleGeometry :=
  ⟨true, [A, B, C, A, C, D], none⟩

/-- The quadrilateral `A B C D` as four triangles around `P`, in double
precision. -/
def doubleFourTriangles (A B C D P : DoubleVector3) : DoubleGeometry :=
  ⟨true, [A, B, P, B, C, P, C, D, P, D, A, P], none⟩

/-- An indexed triangle without normal attribute. -/
def triangleWithoutNormals : BufferGeometry :=
  ⟨true, [⟨0, 0, 0⟩, ⟨1, 0, 0⟩, ⟨0, 0, 1⟩], none, some [0, 1, 2], none⟩

/-! ## Area measurement -/

theorem projectedTriangleArea_readVertex (A B C : Vector3) :
    projectedTriangleArea (readVertex A) (readVertex B) (readVertex C)
      = some (specTriangleArea A B C) := by
  simp [projectedTriangleArea, readVertex, JsVector2.cross, jsSub, jsMul, jsAbs, jsDiv,
    specTriangleArea]

/-- The area loop on readable vertices adds the reference sum of the vertices
not yet visited to the accumulator, as soon as the fuel covers them. -/
theorem areaLoop_eq_spec (vertexAt : Nat → JsVector3) (verts : List Vector3)
    (hv : ∀ i (h : i < verts.length), vertexAt i = readVertex verts[i])
    (h3 : verts.length % 3 = 0) :
    ∀ (fuel i : Nat) (acc : ℚ), i % 3 = 0 → i ≤ verts.length → verts.length ≤ i + 3 * fuel →
      areaLoop vertexAt verts.length fuel i (some acc)
        = some (acc + specTriplesArea (verts.drop i)) := by
  intro fuel
  induction fuel with
  | zero =>
    intro i acc _ hle hfuel
    have hi : i = verts.length := by omega
    subst hi
    simp [areaLoop, specTriplesArea]
  | succ fuel ih =>
    intro i acc hi hle hfuel
    by_cases hlt : i < verts.length
    · have h0 : i < verts.length := hlt
      have h1 : i + 1 < verts.length := by omega
      have h2 : i + 2 < verts.length := by omega
      have hd : verts.drop i
          = verts[i] :: verts[i + 1] :: verts[i + 2] :: verts.drop (i + 3) := by
        rw [List.drop_eq_getElem_cons h0, List.drop_eq_getElem_cons h1,
          List.drop_eq_getElem_cons h2]
      rw [areaLoop, if_pos hlt, hv i h0, hv (i + 1) h1, hv (i + 2) h2,
        projectedTriangleArea_readVertex]
      have hstep : jsAdd (some acc) (some (specTriangleArea verts[i] verts[i + 1] verts[i + 2]))
          = some (acc + specTriangleArea verts[i] verts[i + 1] verts[i + 2]) := rfl
      rw [hstep, ih (i + 3) _ (by omega) (by omega) (by omega), hd]
      simp [specTriplesArea, add_assoc]
    · have hi' : i = verts.length := by omega
      subst hi'
      simp [areaLoop, specTriplesArea]

/-- The area loop reads only the x and z components of the fetched vertices. -/
theorem areaLoop_congr_horizontal (f g : Nat → JsVector3) (count : Nat)
    (hx : ∀ i, (f i).x = (g i).x) (hz : ∀ i, (f i).z = (g i).z) :
    ∀ (fuel i : Nat) (acc : JsNum), areaLoop f count fuel i acc = areaLoop g count fuel i acc := by
  intro fuel
  induction fuel with
  | zero => intro i acc; rfl
  | succ fuel ih =>
    intro i acc
    simp only [areaLoop, projectedTriangleArea, hx, hz, ih]

theorem attrGet_congr_horizontal (p q : List Vector3)
    (h : p.map horizontal = q.map horizontal) (k : Option Nat) :
    attrGetX p k = attrGetX q k ∧ attrGetZ p k = attrGetZ q k := by
  cases k with
  | none => simp [attrGetX, attrGetZ]
  | some k =>
    have hk : (p.map horizontal)[k]? = (q.map horizontal)[k]? := by rw [h]
    rw [List.getElem?_map, List.getElem?_map] at hk
    simp only [attrGetX, attrGetZ, Option.some_bind]
    cases hp : p[k]? <;> cases hq : q[k]? <;> simp [hp, hq, horizontal] at hk ⊢
    exact hk

theorem fromBufferAttribute_some (position : List Vector3) (k : Nat) (h : k < position.length) :
    fromBufferAttribute position (some k) = readVertex position[k] := by
  simp [fromBufferAttribute, attrGetX, attrGetY, attrGetZ, readVertex,
    List.getElem?_eq_getElem h]

theorem length_expandIndex (position : List Vector3) (index : List Nat) :
    (expandIndex position index).length = index.length := by
  simp [expandIndex]

/-- On a triangle mesh the measured area is the reference sum over the
vertices in drawing order. -/
theorem calculateMeshArea_eq_spec (geometry : BufferGeometry)
    (hbuf : geometry.isBufferGeometry = true) (hmesh : TriangleMesh geometry) :
    calculateMeshArea geometry = some (specTriplesArea (triangleVertices geometry)) := by
  obtain ⟨isBuf, position, normal, index, box⟩ := geometry
  simp only at hbuf
  subst hbuf
  cases index with
  | none =>
    simp only [TriangleMesh] at hmesh
    simp only [calculateMeshArea, triangleVertices, if_true]
    have h := areaLoop_eq_spec (fun i => fromBufferAttribute position (some i)) position
      (fun i hi => fromBufferAttribute_some position i hi) hmesh position.length 0 0
      (by simp) (by omega) (by omega)
    simpa using h
  | some index =>
    simp only [TriangleMesh] at hmesh
    obtain ⟨h3, hrange⟩ := hmesh
    simp only [calculateMeshArea, triangleVertices, if_true]
    have hlen := length_expandIndex position index
    have h := areaLoop_eq_spec (fun i => fromBufferAttribute position (indexGetX index i))
      (expandIndex position index)
      (by
        intro i hi
        have hi' : i < index.length := by rw [hlen] at hi; exact hi
        have hk : index[i] < position.length := hrange _ (List.getElem_mem hi')
        simp only [indexGetX, List.getElem?_eq_getElem hi']
        rw [fromBufferAttribute_some position _ hk]
        simp [expandIndex, List.getElem?_eq_getElem hk])
      (by rw [hlen]; exact h3) index.length 0 0 (by simp) (by omega) (by omega)
    rw [hlen] at h
    simpa using h

/-- The measured area of any buffer geometry depends on the positions only
through their horizontal coordinates. -/
theorem calculateMeshArea_congr_horizontal (g other : BufferGeometry)
    (hbuf : other.isBufferGeometry = g.isBufferGeometry) (hidx : other.index = g.index)
    (hpos : other.position.map horizontal = g.position.map horizontal) :
    calculateMeshArea other = calculateMeshArea g := by
  obtain ⟨isBuf, position, normal, index, box⟩ := g
  obtain ⟨isBuf', position', normal', index', box'⟩ := other
  simp only at hbuf hidx hpos
  subst hbuf hidx
  have hlen : position'.length = position.length := by
    have := congrArg List.length hpos
    simpa using this
  cases isBuf' with
  | false => simp [calculateMeshArea]
  | true =>
    cases index' with
    | none =>
      simp only [calculateMeshArea, if_true, hlen]
      exact areaLoop_congr_horizontal _ _ _
        (fun i => (attrGet_congr_horizontal position' position hpos (some i)).1)
        (fun i => (attrGet_congr_horizontal position' position hpos (some i)).2) _ _ _
    | some index =>
      simp only [calculateMeshArea, if_true]
      exact areaLoop_congr_horizontal _ _ _
        (fun i => (attrGet_congr_horizontal position' position hpos (indexGetX index i)).1)
        (fun i => (attrGet_congr_horizontal position' position hpos (indexGetX index i)).2)
        _ _ _

/-- C1: on every buffer-geometry triangle mesh, `calculateMeshArea` returns
the sum over each consecutive vertex triple (through the index list when
indexed, from the position list otherwise) of
`|(B.x-A.x)*(C.z-A.z) - (B.z-A.z)*(C.x-A.x)| / 2`; a mesh with the same index
list and the same horizontal coordinates measures the same whatever its
heights; and the indexed mesh measures the same as the non-indexed mesh
obtained by expanding its index list into positions. -/
theorem calculateMeshArea_sum_of_projected_triangles (geometry : BufferGeometry)
    (hbuf : geometry.isBufferGeometry = true) (hmesh : TriangleMesh geometry) :
    calculateMeshArea geometry = some (specTriplesArea (triangleVertices geometry))
    ∧ (∀ other : BufferGeometry, other.isBufferGeometry = true →
        other.index = geometry.index →
        other.position.map horizontal = geometry.position.map horizontal →
        calculateMeshArea other = calculateMeshArea geometry)
    ∧ calculateMeshArea
        { geometry with position := triangleVertices geometry, index := none }
        = calculateMeshArea geometry := by
  refine ⟨calculateMeshArea_eq_spec geometry hbuf hmesh, ?_, ?_⟩
  · intro other hother hidx hpos
    exact calculateMeshArea_congr_horizontal geometry other (by rw [hother, hbuf]) hidx hpos
  · rw [calculateMeshArea_eq_spec geometry hbuf hmesh]
    have hmesh' : TriangleMesh
        { geometry with position := triangleVertices geometry, index := none } := by
      obtain ⟨isBuf, position, normal, index, box⟩ := geometry
      cases index with
      | none => simpa [TriangleMesh, triangleVertices] using hmesh
      | some index =>
        simp only [TriangleMesh] at hmesh
        simp [TriangleMesh, triangleVertices, length_expandIndex, hmesh.1]
    rw [calculateMeshArea_eq_spec
      { geometry with position := triangleVertices geometry, index := none } hbuf hmesh']
    simp [triangleVertices]

theorem triangleMesh_unitSquareIndexed (h : ℚ) (d : Bool) :
    TriangleMesh (unitSquareIndexed h d) := by
  cases d <;> simp [TriangleMesh, unitSquareIndexed, unitSquareIndex, unitSquareCorners]

theorem triangleMesh_unitSquareNonIndexed (h : ℚ) (d : Bool) :
    TriangleMesh (unitSquareNonIndexed h d) := by
  cases d <;> simp [TriangleMesh, unitSquareNonIndexed, unitSquareIndex, expandIndex]

/-- Witness of C1 on the indexed unit square at height 0. -/
theorem calculateMeshArea_sum_of_projected_triangles_witness :
    (unitSquareIndexed 0 false).isBufferGeometry = true
    ∧ TriangleMesh (unitSquareIndexed 0 false)
    ∧ calculateMeshArea (unitSquareIndexed 0 false)
        = some (specTriplesArea (triangleVertices (unitSquareIndexed 0 false))) :=
  ⟨rfl, triangleMesh_unitSquareIndexed 0 false,
    (calculateMeshArea_sum_of_projected_triangles (unitSquareIndexed 0 false) rfl
      (triangleMesh_unitSquareIndexed 0 false)).1⟩

/-- C2: the unit-square horizontal floor at any constant height, cut into two
triangles along either diagonal, measures area 1 and dimensions
`{width: 1, length: 1}`, as 4 vertices with a 6-entry index list and as 6
vertices without index list. -/
theorem unitSquare_area_and_dimensions (h : ℚ) (otherDiagonal : Bool) :
    calculateMeshArea (unitSquareIndexed h otherDiagonal) = some 1
    ∧ calculateFloorDimensions (unitSquareIndexed h otherDiagonal) = ⟨some 1, some 1⟩
    ∧ calculateMeshArea (unitSquareNonIndexed h otherDiagonal) = some 1
    ∧ calculateFloorDimensions (unitSquareNonIndexed h otherDiagonal) = ⟨some 1, some 1⟩ := by
  refine ⟨?_, ?_, ?_, ?_⟩
  · rw [calculateMeshArea_eq_spec _ rfl (triangleMesh_unitSquareIndexed h otherDiagonal)]
    cases otherDiagonal <;>
      norm_num [triangleVertices, unitSquareIndexed, unitSquareIndex, unitSquareCorners,
        expandIndex, specTriplesArea, specTriangleArea]
  · cases otherDiagonal <;>
      norm_num [calculateFloorDimensions, computeBoundingBox, unitSquareIndexed,
        unitSquareCorners]
  · rw [calculateMeshArea_eq_spec _ rfl (triangleMesh_unitSquareNonIndexed h otherDiagonal)]
    cases otherDiagonal <;>
      norm_num [triangleVertices, unitSquareNonIndexed, unitSquareIndex, unitSquareCorners,
        expandIndex, specTriplesArea, specTriangleArea]
  · cases otherDiagonal <;>
      norm_num [calculateFloorDimensions, computeBoundingBox, unitSquareNonIndexed,
        unitSquareIndex, unitSquareCorners, expandIndex]

theorem specTriangleArea_eq_turn (A B C : Vector3) :
    specTriangleArea A B C = |turn A B C| / 2 := rfl

/-- The shoelace identity behind re-triangulation: the four turns around `P`
add up to the two turns of the fan from `A`. -/
theorem turn_fan_eq (A B C D P : Vector3) :
    turn A B P + turn B C P + turn C D P + turn D A P = turn A B C + turn A C D := by
  simp only [turn]
  ring

theorem turn_rotate (A C D : Vector3) : turn A C D = turn C D A := by
  simp only [turn]
  ring

/-- Both triangulations of a convex quadrilateral have the same reference
area. -/
theorem spec_area_retriangulation (A B C D P : Vector3)
    (hconvex : ConvexQuad A B C D) (hinside : InsideQuad A B C D P) :
    specTriangleArea A B C + specTriangleArea A C D
      = specTriangleArea A B P + specTriangleArea B C P + specTriangleArea C D P
        + specTriangleArea D A P := by
  simp only [specTriangleArea_eq_turn]
  have hfan := turn_fan_eq A B C D P
  have hrot := turn_rotate A C D
  have htwo : |turn A B C| + |turn A C D| = |turn A B C + turn A C D| := by
    rcases hconvex with ⟨h1, _, h3, _⟩ | ⟨h1, _, h3, _⟩
    · rw [← hrot] at h3
      rw [abs_of_nonneg h1, abs_of_nonneg h3, abs_of_nonneg (add_nonneg h1 h3)]
    · rw [← hrot] at h3
      rw [abs_of_nonpos h1, abs_of_nonpos h3, abs_of_nonpos (add_nonpos h1 h3)]
      ring
  have hfour : |turn A B P| + |turn B C P| + |turn C D P| + |turn D A P|
      = |turn A B P + turn B C P + turn C D P + turn D A P| := by
    rcases hinside with ⟨h1, h2, h3, h4⟩ | ⟨h1, h2, h3, h4⟩
    · rw [abs_of_nonneg h1, abs_of_nonneg h2, abs_of_nonneg h3, abs_of_nonneg h4,
        abs_of_nonneg (by linarith)]
    · rw [abs_of_nonpos h1, abs_of_nonpos h2, abs_of_nonpos h3, abs_of_nonpos h4,
        abs_of_nonpos (by linarith)]
      ring
  rw [hfan] at hfour
  linarith

/-- C3, amended: in exact arithmetic, for every convex quadrilateral `A B C D`
and every point `P` inside it (at any heights), the mesh of the 2 triangles
`(A,B,C)`, `(A,C,D)` and the mesh of the 4 triangles `(A,B,P)`, `(B,C,P)`,
`(C,D,P)`, `(D,A,P)` measure the same area, both as non-indexed and as indexed
meshes: the sums of `|cross| / 2` agree before any rounding. -/
theorem calculateMeshArea_retriangulation (A B C D P : Vector3)
    (hconvex : ConvexQuad A B C D) (hinside : InsideQuad A B C D P) :
    calculateMeshArea (quadTwoTriangles A B C D)
      = calculateMeshArea (quadFourTriangles A B C D P)
    ∧ calculateMeshArea (quadTwoTrianglesIndexed A B C D P)
      = calculateMeshArea (quadFourTrianglesIndexed A B C D P)
    ∧ ∃ area : ℚ, calculateMeshArea (quadTwoTriangles A B C D) = some area := by
  have hspec := spec_area_retriangulation A B C D P hconvex hinside
  have h2 : calculateMeshArea (quadTwoTriangles A B C D)
      = some (specTriangleArea A B C + specTriangleArea A C D) := by
    rw [calculateMeshArea_eq_spec _ rfl (by simp [TriangleMesh, quadTwoTriangles])]
    simp [triangleVertices, quadTwoTriangles, specTriplesArea]
  have h4 : calculateMeshArea (quadFourTriangles A B C D P)
      = some (specTriangleArea A B P + specTriangleArea B C P + specTriangleArea C D P
          + specTriangleArea D A P) := by
    rw [calculateMeshArea_eq_spec _ rfl (by simp [TriangleMesh, quadFourTriangles])]
    simp [triangleVertices, quadFourTriangles, specTriplesArea, add_assoc]
  have h2i : calculateMeshArea (quadTwoTrianglesIndexed A B C D P)
      = some (specTriangleArea A B C + specTriangleArea A C D) := by
    rw [calculateMeshArea_eq_spec _ rfl (by simp [TriangleMesh, quadTwoTrianglesIndexed])]
    simp [triangleVertices, quadTwoTrianglesIndexed, expandIndex, specTriplesArea]
  have h4i : calculateMeshArea (quadFourTrianglesIndexed A B C D P)
      = some (specTriangleArea A B P + specTriangleArea B C P + specTriangleArea C D P
          + specTriangleArea D A P) := by
    rw [calculateMeshArea_eq_spec _ rfl (by simp [TriangleMesh, quadFourTrianglesIndexed])]
    simp [triangleVertices, quadFourTrianglesIndexed, expandIndex, specTriplesArea, add_assoc]
  refine ⟨?_, ?_, _, h2⟩
  · rw [h2, h4, hspec]
  · rw [h2i, h4i, hspec]

/-- Witness of the amended C3: the unit square with its centre. -/
theorem calculateMeshArea_retriangulation_witness :
    ConvexQuad ⟨0, 0, 0⟩ ⟨1, 0, 0⟩ ⟨1, 0, 1⟩ ⟨0, 0, 1⟩
    ∧ InsideQuad ⟨0, 0, 0⟩ ⟨1, 0, 0⟩ ⟨1, 0, 1⟩ ⟨0, 0, 1⟩ ⟨1 / 2, 0, 1 / 2⟩
    ∧ calculateMeshArea (quadTwoTriangles ⟨0, 0, 0⟩ ⟨1, 0, 0⟩ ⟨1, 0, 1⟩ ⟨0, 0, 1⟩)
      = calculateMeshArea
          (quadFourTriangles ⟨0, 0, 0⟩ ⟨1, 0, 0⟩ ⟨1, 0, 1⟩ ⟨0, 0, 1⟩ ⟨1 / 2, 0, 1 / 2⟩) :=
  have hc : ConvexQuad ⟨0, 0, 0⟩ ⟨1, 0, 0⟩ ⟨1, 0, 1⟩ ⟨0, 0, 1⟩ := by
    left; norm_num [turn]
  have hi : InsideQuad ⟨0, 0, 0⟩ ⟨1, 0, 0⟩ ⟨1, 0, 1⟩ ⟨0, 0, 1⟩ ⟨1 / 2, 0, 1 / 2⟩ := by
    left; norm_num [turn]
  ⟨hc, hi, (calculateMeshArea_retriangulation _ _ _ _ _ hc hi).1⟩

/-! ## Face classification -/

theorem lt_length_iff_lt_triangleCount (index : List Nat) (j : Nat) :
    3 * j < index.length ↔ j < triangleCount index := by
  unfold triangleCount
  omega

/-- The classification loop appends, to each list, the triangle numbers not
yet visited that pass, respectively fail, the test, in ascending order. -/
theorem classifyLoop_eq_filter (normals : List Vector3) (index : List Nat) :
    ∀ (fuel j : Nat) (topFaces sideFaces : List Nat), triangleCount index - j ≤ fuel →
      classifyLoop normals index fuel (3 * j) topFaces sideFaces
        = (topFaces ++ (List.range' j (triangleCount index - j)).filter
              (fun k => isTop normals index k),
           sideFaces ++ (List.range' j (triangleCount index - j)).filter
              (fun k => !isTop normals index k)) := by
  intro fuel
  induction fuel with
  | zero =>
    intro j topFaces sideFaces hfuel
    have h0 : triangleCount index - j = 0 := by omega
    simp [classifyLoop, h0]
  | succ fuel ih =>
    intro j topFaces sideFaces hfuel
    by_cases hlt : 3 * j < index.length
    · have hj : j < triangleCount index := (lt_length_iff_lt_triangleCount index j).1 hlt
      have hsplit : triangleCount index - j = (triangleCount index - (j + 1)) + 1 := by omega
      have hdiv : 3 * j / 3 = j := Nat.mul_div_cancel_left j (by decide)
      have hnext : 3 * j + 3 = 3 * (j + 1) := by ring
      rw [classifyLoop, if_pos hlt, hdiv, hnext, hsplit, List.range'_succ]
      by_cases htop : (faceNormal normals index (3 * j)).y > 1 / 2
      · have ht : isTop normals index j = true := decide_eq_true htop
        rw [if_pos htop, ih (j + 1) _ _ (by omega)]
        simp [List.filter_cons, ht]
      · have ht : isTop normals index j = false := decide_eq_false htop
        rw [if_neg htop, ih (j + 1) _ _ (by omega)]
        simp [List.filter_cons, ht]
    · have hj : ¬ j < triangleCount index := fun h =>
        hlt ((lt_length_iff_lt_triangleCount index j).2 h)
      have h0 : triangleCount index - j = 0 := by omega
      simp [classifyLoop, hlt, h0]

/-- The two lists of an indexed mesh with normals are the triangle numbers
that pass and that fail the test. -/
theorem classifyFaces_eq_filter (geometry : BufferGeometry) (normals : List Vector3)
    (index : List Nat) (hn : geometry.normal = some normals) (hi : geometry.index = some index) :
    classifyFaces geometry
      = some ((List.range (triangleCount index)).filter (fun k => isTop normals index k),
              (List.range (triangleCount index)).filter (fun k => !isTop normals index k)) := by
  have hfuel : triangleCount index - 0 ≤ index.length := by
    unfold triangleCount
    omega
  have h := classifyLoop_eq_filter normals index index.length 0 [] [] hfuel
  simp only [Nat.mul_zero, Nat.sub_zero, List.nil_append] at h
  simp only [classifyFaces, hi, hn, h, List.range_eq_range']

theorem triangleCount_of_length (index : List Nat) (N : Nat) (h : index.length = 3 * N) :
    triangleCount index = N := by
  unfold triangleCount
  omega

theorem attrGetY_getD (normals : List Vector3) (k : Nat) :
    (attrGetY normals (some k)).getD 0 = (normals.getD k ⟨0, 0, 0⟩).y := by
  simp only [attrGetY, Option.some_bind, List.getD_eq_getElem?_getD]
  cases normals[k]? <;> rfl

/-- On a complete triangle the tested value is the y component of the average
of the three vertex normals. -/
theorem faceNormal_y_eq_spec (normals : List Vector3) (index : List Nat) (k : Nat)
    (h : 3 * k + 2 < index.length) :
    (faceNormal normals index (3 * k)).y = specFaceNormalY normals index k := by
  have h0 : 3 * k < index.length := by omega
  have h1 : 3 * k + 1 < index.length := by omega
  have e0 : index[3 * k]? = some (index.getD (3 * k) 0) := by
    rw [List.getD_eq_getElem _ _ h0, List.getElem?_eq_getElem h0]
  have e1 : index[3 * k + 1]? = some (index.getD (3 * k + 1) 0) := by
    rw [List.getD_eq_getElem _ _ h1, List.getElem?_eq_getElem h1]
  have e2 : index[3 * k + 2]? = some (index.getD (3 * k + 2) 0) := by
    rw [List.getD_eq_getElem _ _ h, List.getElem?_eq_getElem h]
  simp only [faceNormal, indexGetX, e0, e1, e2, newVector3, Vector3.add, Vector3.divideScalar,
    attrGetY_getD, specFaceNormalY, zero_add]

theorem getD_getD_mem (normals : List Vector3) (index : List Nat) (i : Nat)
    (hi : i < index.length) (hrange : ∀ k ∈ index, k < normals.length) :
    normals.getD (index.getD i 0) ⟨0, 0, 0⟩ ∈ normals := by
  have hk : index.getD i 0 < normals.length := by
    rw [List.getD_eq_getElem _ _ hi]
    exact hrange _ (List.getElem_mem hi)
  rw [List.getD_eq_getElem _ _ hk]
  exact List.getElem_mem hk

theorem specFaceNormalY_of_all_up (normals : List Vector3) (index : List Nat) (k : Nat)
    (h : 3 * k + 2 < index.length) (hrange : ∀ i ∈ index, i < normals.length)
    (hup : ∀ n ∈ normals, n = ⟨0, 1, 0⟩) :
    specFaceNormalY normals index k = 1 := by
  unfold specFaceNormalY
  rw [hup _ (getD_getD_mem normals index (3 * k) (by omega) hrange),
    hup _ (getD_getD_mem normals index (3 * k + 1) (by omega) hrange),
    hup _ (getD_getD_mem normals index (3 * k + 2) h hrange)]
  norm_num

theorem getD_y_of_all_forward (normals : List Vector3) (i : Nat)
    (hfwd : ∀ n ∈ normals, n = ⟨0, 0, 1⟩) : (normals.getD i ⟨0, 0, 0⟩).y = 0 := by
  by_cases hi : i < normals.length
  · rw [List.getD_eq_getElem _ _ hi, hfwd _ (List.getElem_mem hi)]
  · rw [List.getD_eq_default _ _ (by omega)]

theorem specFaceNormalY_of_all_forward (normals : List Vector3) (index : List Nat) (k : Nat)
    (hfwd : ∀ n ∈ normals, n = ⟨0, 0, 1⟩) :
    specFaceNormalY normals index k = 0 := by
  unfold specFaceNormalY
  rw [getD_y_of_all_forward normals _ hfwd, getD_y_of_all_forward normals _ hfwd,
    getD_y_of_all_forward normals _ hfwd]
  norm_num

theorem isTop_iff_spec (normals : List Vector3) (index : List Nat) (N k : Nat)
    (hlen : index.length = 3 * N) (hk : k < N) :
    isTop normals index k = true ↔ specFaceNormalY normals index k > 1 / 2 := by
  rw [isTop, decide_eq_true_iff, faceNormal_y_eq_spec normals index k (by omega)]

/-- C4: in the floor apply path, triangle number `k` of an indexed mesh with
`N` triangles is put in the top list if and only if the y component of the
average of its three vertex normals is strictly greater than 0.5, and in the
other list otherwise; with all vertex normals `(0,1,0)` every triangle is top
and none is other, with all vertex normals `(0,0,1)` every triangle is other. -/
theorem classifyFaces_top_iff_threshold (geometry : BufferGeometry) (normals : List Vector3)
    (index : List Nat) (N : Nat) (hn : geometry.normal = some normals)
    (hi : geometry.index = some index) (hlen : index.length = 3 * N) :
    ∃ topFaces sideFaces, classifyFaces geometry = some (topFaces, sideFaces)
      ∧ (∀ k, k < N →
          (k ∈ topFaces ↔ specFaceNormalY normals index k > 1 / 2)
          ∧ (k ∈ sideFaces ↔ ¬ specFaceNormalY normals index k > 1 / 2))
      ∧ ((∀ i ∈ index, i < normals.length) → (∀ n ∈ normals, n = ⟨0, 1, 0⟩) →
          topFaces = List.range N ∧ sideFaces = [])
      ∧ ((∀ n ∈ normals, n = ⟨0, 0, 1⟩) →
          topFaces = [] ∧ sideFaces = List.range N) := by
  have hN := triangleCount_of_length index N hlen
  refine ⟨_, _, classifyFaces_eq_filter geometry normals index hn hi, ?_, ?_, ?_⟩
  · intro k hk
    have hiff := isTop_iff_spec normals index N k hlen hk
    rw [hN]
    constructor
    · simp only [List.mem_filter, List.mem_range]
      exact ⟨fun h => hiff.1 h.2, fun h => ⟨hk, hiff.2 h⟩⟩
    · simp only [List.mem_filter, List.mem_range, Bool.not_eq_true']
      constructor
      · intro h hgt
        rw [hiff.2 hgt] at h
        exact Bool.noConfusion h.2
      · intro h
        refine ⟨hk, ?_⟩
        cases ht : isTop normals index k with
        | false => rfl
        | true => exact absurd (hiff.1 ht) h
  · intro hrange hup
    rw [hN]
    have hall : ∀ k ∈ List.range N, isTop normals index k = true := by
      intro k hk
      have hk' : k < N := List.mem_range.1 hk
      rw [isTop_iff_spec normals index N k hlen hk',
        specFaceNormalY_of_all_up normals index k (by omega) hrange hup]
      norm_num
    constructor
    · exact List.filter_eq_self.2 hall
    · rw [List.filter_eq_nil_iff]
      intro k hk
      simp [hall k hk]
  · intro hfwd
    rw [hN]
    have hall : ∀ k ∈ List.range N, isTop normals index k = false := by
      intro k hk
      have hk' : k < N := List.mem_range.1 hk
      cases ht : isTop normals index k with
      | false => rfl
      | true =>
        have := (isTop_iff_spec normals index N k hlen hk').1 ht
        rw [specFaceNormalY_of_all_forward normals index k hfwd] at this
        norm_num at this
    constructor
    · rw [List.filter_eq_nil_iff]
      intro k hk
      simp [hall k hk]
    · exact List.filter_eq_self.2 (fun k hk => by simp [hall k hk])

/-- Witness of C4: the flat floor, whose two triangles are both top. -/
theorem classifyFaces_top_iff_threshold_witness :
    flatFloor.normal = some flatFloorNormals
    ∧ flatFloor.index = some (unitSquareIndex false)
    ∧ (unitSquareIndex false).length = 3 * 2
    ∧ ∃ topFaces sideFaces, classifyFaces flatFloor = some (topFaces, sideFaces)
        ∧ topFaces = List.range 2 ∧ sideFaces = [] := by
  refine ⟨rfl, rfl, rfl, ?_⟩
  obtain ⟨topFaces, sideFaces, hc, _, hup, _⟩ :=
    classifyFaces_top_iff_threshold flatFloor flatFloorNormals (unitSquareIndex false) 2
      rfl rfl rfl
  refine ⟨topFaces, sideFaces, hc, hup ?_ ?_⟩
  · simp [unitSquareIndex, flatFloorNormals]
  · simp [flatFloorNormals]

/-- C5, amended: for every indexed mesh with `N` triangles (index count `3N`)
that has a normal attribute, the classification loop returns two lists that
are each strictly ascending, are disjoint, and together contain every
triangle number `0..N-1` exactly once; for `N = 0` both lists are empty and
no error is raised, with or without normal attribute. -/
theorem classifyFaces_ascending_partition (geometry : BufferGeometry) (index : List Nat)
    (N : Nat) (hi : geometry.index = some index) (hlen : index.length = 3 * N) :
    (∀ normals, geometry.normal = some normals →
      ∃ topFaces sideFaces, classifyFaces geometry = some (topFaces, sideFaces)
        ∧ topFaces.Sorted (· < ·) ∧ sideFaces.Sorted (· < ·)
        ∧ List.Disjoint topFaces sideFaces
        ∧ (topFaces ++ sideFaces).Perm (List.range N)
        ∧ (∀ k, k < N ↔ (k ∈ topFaces ∨ k ∈ sideFaces)))
    ∧ (N = 0 → classifyFaces geometry = some ([], [])) := by
  have hN := triangleCount_of_length index N hlen
  constructor
  · intro normals hn
    refine ⟨_, _, classifyFaces_eq_filter geometry normals index hn hi, ?_, ?_, ?_, ?_, ?_⟩
    · exact List.Sorted.filter _ (List.sorted_lt_range _)
    · exact List.Sorted.filter _ (List.sorted_lt_range _)
    · rw [List.disjoint_left]
      intro k hk hk2
      have h1 := (List.mem_filter.1 hk).2
      have h2 := (List.mem_filter.1 hk2).2
      simp [h1] at h2
    · rw [hN]
      exact List.filter_append_perm _ _
    · intro k
      rw [hN]
      simp only [List.mem_filter, List.mem_range]
      constructor
      · intro hk
        cases ht : isTop normals index k with
        | false => exact Or.inr ⟨hk, by simp [ht]⟩
        | true => exact Or.inl ⟨hk, rfl⟩
      · rintro (h | h) <;> exact h.1
  · intro h0
    subst h0
    have hnil : index = [] := List.length_eq_zero.1 (by omega)
    subst hnil
    cases hnorm : geometry.normal with
    | none => simp [classifyFaces, hi, hnorm]
    | some normals => simp [classifyFaces, hi, hnorm, classifyLoop]

/-- Witness of the amended C5: the flat floor with its two triangles. -/
theorem classifyFaces_ascending_partition_witness :
    flatFloor.index = some (unitSquareIndex false)
    ∧ (unitSquareIndex false).length = 3 * 2
    ∧ ∃ topFaces sideFaces, classifyFaces flatFloor = some (topFaces, sideFaces)
        ∧ (topFaces ++ sideFaces).Perm (List.range 2) := by
  refine ⟨rfl, rfl, ?_⟩
  obtain ⟨topFaces, sideFaces, hc, _, _, _, hperm, _⟩ :=
    (classifyFaces_ascending_partition flatFloor (unitSquareIndex false) 2 rfl rfl).1
      flatFloorNormals rfl
  exact ⟨topFaces, sideFaces, hc, hperm⟩

/-! ## Material groups -/

/-- The groups built from two runs of triangle numbers. -/
theorem buildGroups_range' (a m b n : Nat) :
    buildGroups (List.range' a m) (List.range' b n)
      = (if 0 < m then [(⟨a * 3, m * 3, 0⟩ : Group)] else [])
        ++ (if 0 < n then [(⟨b * 3, n * 3, 1⟩ : Group)] else []) := by
  by_cases hm : 0 < m <;> by_cases hn : 0 < n <;>
    simp [buildGroups, hm, hn, List.getElem_range']

/-- At most two groups are built, whatever the lists. -/
theorem buildGroups_length_le (topFaces sideFaces : List Nat) :
    (buildGroups topFaces sideFaces).length ≤ 2 := by
  unfold buildGroups
  by_cases ht : 0 < topFaces.length <;> by_cases hs : 0 < sideFaces.length <;> simp [ht, hs]

/-- Runs that partition `0..N-1` tile the interval: lengths add up to `N`
and two non-empty runs are adjacent. -/
theorem runs_tile (N a m b n : Nat)
    (hcover : ∀ k, k < N ↔ ((a ≤ k ∧ k < a + m) ∨ (b ≤ k ∧ k < b + n)))
    (hdisj : ∀ k, ¬ ((a ≤ k ∧ k < a + m) ∧ (b ≤ k ∧ k < b + n))) :
    m + n = N ∧ (0 < m → 0 < n → (a = 0 ∧ b = m) ∨ (b = 0 ∧ a = n))
      ∧ (0 < m → n = 0 → a = 0) ∧ (0 < n → m = 0 → b = 0) := by
  have c0 := hcover 0
  have ca := hcover a
  have cb := hcover b
  have cam := hcover (a + m)
  have cbn := hcover (b + n)
  have cam1 := hcover (a + m - 1)
  have cbn1 := hcover (b + n - 1)
  have cN := hcover N
  have da := hdisj a
  have db := hdisj b
  have dam1 := hdisj (a + m - 1)
  have dbn1 := hdisj (b + n - 1)
  omega

/-- The groups of two runs that partition `0..N-1`: index ranges apart, every
index position below `3N` and no other covered, counts adding up to `N`. -/
theorem buildGroups_range'_tile (N a m b n : Nat)
    (hcover : ∀ k, k < N ↔ ((a ≤ k ∧ k < a + m) ∨ (b ≤ k ∧ k < b + n)))
    (hdisj : ∀ k, ¬ ((a ≤ k ∧ k < a + m) ∧ (b ≤ k ∧ k < b + n))) :
    (buildGroups (List.range' a m) (List.range' b n)).Pairwise Group.apart
    ∧ (∀ j, j < 3 * N ↔ ∃ g ∈ buildGroups (List.range' a m) (List.range' b n), g.covers j)
    ∧ ((buildGroups (List.range' a m) (List.range' b n)).map fun g => g.count / 3).sum = N := by
  obtain ⟨hsum, hboth, htop, hside⟩ := runs_tile N a m b n hcover hdisj
  rw [buildGroups_range']
  by_cases hm : 0 < m <;> by_cases hn : 0 < n
  · simp only [hm, hn, if_true, List.singleton_append]
    refine ⟨?_, ?_, ?_⟩
    · simp only [List.pairwise_cons, List.mem_singleton, forall_eq, List.not_mem_nil,
        false_implies, implies_true, List.Pairwise.nil, and_true, Group.apart]
      have := hboth hm hn
      omega
    · intro j
      simp only [List.mem_cons, List.mem_singleton, exists_eq_or_imp, exists_eq_left,
        List.not_mem_nil, false_and, exists_false, or_false, Group.covers]
      have := hboth hm hn
      omega
    · simp only [List.map_cons, List.map_nil, List.sum_cons, List.sum_nil]
      omega
  · simp only [hm, hn, if_true, if_false, List.append_nil]
    refine ⟨List.pairwise_singleton _ _, ?_, ?_⟩
    · intro j
      simp only [List.mem_singleton, exists_eq_left, Group.covers]
      have := htop hm (by omega)
      omega
    · simp only [List.map_cons, List.map_nil, List.sum_cons, List.sum_nil]
      omega
  · simp only [hm, hn, if_true, if_false, List.nil_append]
    refine ⟨List.pairwise_singleton _ _, ?_, ?_⟩
    · intro j
      simp only [List.mem_singleton, exists_eq_left, Group.covers]
      have := hside hn (by omega)
      omega
    · simp only [List.map_cons, List.map_nil, List.sum_cons, List.sum_nil]
      omega
  · simp only [hm, hn, if_false, List.append_nil]
    refine ⟨List.Pairwise.nil, ?_, ?_⟩
    · intro j
      simp only [List.not_mem_nil, false_and, exists_false, iff_false]
      omega
    · simp only [List.map_nil, List.sum_nil]
      omega

/-- C6: when the top and other triangle lists are each one contiguous run
and together partition `0..N-1`, the floor apply path builds at most two
groups, `[firstTop*3, |top|*3, slot 0]` and `[firstOther*3, |other|*3, slot 1]`
with none for an empty list; their index ranges do not overlap, cover exactly
`[0, 3N)`, and their triangle counts add up to `N`. -/
theorem buildGroups_contiguous_partition (N : Nat) (topFaces sideFaces : List Nat)
    (htop : ContiguousRun topFaces) (hside : ContiguousRun sideFaces)
    (hcover : ∀ k, k < N ↔ (k ∈ topFaces ∨ k ∈ sideFaces))
    (hdisj : List.Disjoint topFaces sideFaces) :
    (buildGroups topFaces sideFaces).length ≤ 2
    ∧ buildGroups topFaces sideFaces
        = (match topFaces with
            | [] => []
            | firstTop :: _ => [(⟨firstTop * 3, topFaces.length * 3, 0⟩ : Group)])
          ++ (match sideFaces with
            | [] => []
            | firstOther :: _ => [(⟨firstOther * 3, sideFaces.length * 3, 1⟩ : Group)])
    ∧ (buildGroups topFaces sideFaces).Pairwise Group.apart
    ∧ (∀ j, j < 3 * N ↔ ∃ g ∈ buildGroups topFaces sideFaces, g.covers j)
    ∧ ((buildGroups topFaces sideFaces).map fun g => g.count / 3).sum = N := by
  refine ⟨buildGroups_length_le topFaces sideFaces, ?_, ?_⟩
  · cases topFaces <;> cases sideFaces <;> simp [buildGroups]
  · obtain ⟨a, ha⟩ := htop
    obtain ⟨b, hb⟩ := hside
    rw [ha, hb]
    apply buildGroups_range'_tile
    · intro k
      rw [hcover k, ha, hb]
      simp only [List.mem_range'_1, List.length_range']
    · intro k hk
      have h1 : k ∈ topFaces := by rw [ha]; exact List.mem_range'_1.2 hk.1
      have h2 : k ∈ sideFaces := by rw [hb]; exact List.mem_range'_1.2 hk.2
      exact List.disjoint_left.1 hdisj h1 h2

/-- Witness of C6: four triangles, the first two top and the last two other. -/
theorem buildGroups_contiguous_partition_witness :
    ContiguousRun [0, 1] ∧ ContiguousRun [2, 3]
    ∧ buildGroups [0, 1] [2, 3] = [⟨0, 6, 0⟩, ⟨6, 6, 1⟩]
    ∧ ((buildGroups [0, 1] [2, 3]).map fun g => g.count / 3).sum = 4 := by
  have h1 : ContiguousRun [0, 1] := ⟨0, rfl⟩
  have h2 : ContiguousRun [2, 3] := ⟨2, rfl⟩
  have h := buildGroups_contiguous_partition 4 [0, 1] [2, 3] h1 h2
    (by intro k; simp only [List.mem_cons, List.mem_singleton, List.not_mem_nil, or_false]; omega)
    (by simp)
  exact ⟨h1, h2, h.2.1, h.2.2.2.2⟩

theorem classifyFaces_interleavedFloor :
    classifyFaces interleavedFloor = some ([0, 2], [1]) := by
  norm_num [classifyFaces, interleavedFloor, classifyLoop, faceNormal, indexGetX, attrGetX,
    attrGetY, attrGetZ, newVector3, Vector3.add, Vector3.divideScalar]

/-- C7, evaluated where it fails: on three triangles whose normals point up,
sideways, up, the floor apply builds the groups `[0, 6, slot 0]` and
`[3, 3, slot 1]`; their index ranges overlap on the second triangle (index
positions 3..5) and leave the third triangle (index positions 6..8) in no
group. -/
theorem floorGroups_interleaved_overlap_and_gap :
    classifyFaces interleavedFloor = some ([0, 2], [1])
    ∧ floorGroups interleavedFloor = some [⟨0, 6, 0⟩, ⟨3, 3, 1⟩]
    ∧ ∃ groups, floorGroups interleavedFloor = some groups
        ∧ ¬ groups.Pairwise Group.apart
        ∧ (∀ j, 3 ≤ j → j < 6 → ∀ g ∈ groups, g.covers j)
        ∧ (∀ j, 6 ≤ j → j < 9 → ¬ ∃ g ∈ groups, g.covers j) := by
  have hg : floorGroups interleavedFloor = some [⟨0, 6, 0⟩, ⟨3, 3, 1⟩] := by
    simp [floorGroups, classifyFaces_interleavedFloor, buildGroups]
  refine ⟨classifyFaces_interleavedFloor, hg, _, hg, ?_, ?_, ?_⟩
  · simp [Group.apart]
  · intro j h3 h6 g hgm
    simp only [List.mem_cons, List.mem_singleton, List.not_mem_nil, or_false] at hgm
    rcases hgm with rfl | rfl <;> simp only [Group.covers] <;> omega
  · rintro j h6 h9 ⟨g, hgm, hc⟩
    simp only [List.mem_cons, List.mem_singleton, List.not_mem_nil, or_false] at hgm
    rcases hgm with rfl | rfl <;> simp only [Group.covers] at hc <;> omega

/-! ## Texture repeat and tile report -/

theorem selectRepeat_floor (design : Design) (dimensions : TileDimensions)
    (floorDimensions : FloorDimensions) (floorArea : Option ℚ)
    (hd : design.dimensions = some dimensions) (hw : floorDimensions.width > 0) :
    selectRepeat (some "floor") design floorDimensions floorArea
      = floorRepeat dimensions floorDimensions floorArea := by
  simp [selectRepeat, hd, hw]

theorem jsDiv_of_ne_zero (a b : ℚ) (hb : b ≠ 0) : jsDiv (some a) b = some (a / b) := by
  simp [jsDiv, hb]

/-- C8: for a floor mesh, a design with tile dimensions and cached floor
dimensions with positive width, the repeat given to the texture is the
quotient `floorWidth / tileWidth`, `floorLength / tileHeight` itself, not
rounded; floor `10 × 8` with tile `2 × 2` gives `(5, 4)` and floor
`10.5 × 8` with the same tile gives `(5.25, 4)`. -/
theorem selectRepeat_floor_unrounded (floorWidth floorLength tileWidth tileHeight : ℚ)
    (name image : String) (floorArea : Option ℚ) (hw : floorWidth > 0) :
    (let r := selectRepeat (some "floor") ⟨name, image, some ⟨tileWidth, tileHeight⟩⟩
        ⟨floorWidth, floorLength⟩ floorArea
     r.repeatX = jsDiv (some floorWidth) tileWidth
     ∧ r.repeatY = jsDiv (some floorLength) tileHeight
     ∧ (tileWidth ≠ 0 → r.repeatX = some (floorWidth / tileWidth))
     ∧ (tileHeight ≠ 0 → r.repeatY = some (floorLength / tileHeight)))
    ∧ (selectRepeat (some "floor") (tileDesign 2 2) ⟨10, 8⟩ floorArea).repeatX = some 5
    ∧ (selectRepeat (some "floor") (tileDesign 2 2) ⟨10, 8⟩ floorArea).repeatY = some 4
    ∧ (selectRepeat (some "floor") (tileDesign 2 2) ⟨21 / 2, 8⟩ floorArea).repeatX
        = some (21 / 4)
    ∧ (selectRepeat (some "floor") (tileDesign 2 2) ⟨21 / 2, 8⟩ floorArea).repeatY = some 4 := by
  refine ⟨?_, ?_, ?_, ?_, ?_⟩
  · rw [selectRepeat_floor _ ⟨tileWidth, tileHeight⟩ _ _ rfl hw]
    refine ⟨rfl, rfl, ?_, ?_⟩
    · intro h
      exact jsDiv_of_ne_zero _ _ h
    · intro h
      exact jsDiv_of_ne_zero _ _ h
  all_goals
    rw [selectRepeat_floor (tileDesign 2 2) ⟨2, 2⟩ _ _ rfl (by norm_num)]
    norm_num [floorRepeat, jsDiv]

/-- Witness of C8: floor `10.5 × 8`. -/
theorem selectRepeat_floor_unrounded_witness :
    (21 / 2 : ℚ) > 0
    ∧ (selectRepeat (some "floor") (tileDesign 2 2) ⟨21 / 2, 8⟩ none).repeatX = some (21 / 4) :=
  ⟨by norm_num,
    (selectRepeat_floor_unrounded (21 / 2) 8 2 2 "Marble" "/designs/QUINCY BROWN_F1.jpg" none
      (by norm_num)).2.2.2.1⟩

/-- The debug information of a floor apply with non-zero tile size. -/
theorem floorRepeat_debugInfo (floorWidth floorLength tileWidth tileHeight : ℚ)
    (floorArea : Option ℚ) (htw : tileWidth ≠ 0) (hth : tileHeight ≠ 0) :
    ∃ info, (floorRepeat ⟨tileWidth, tileHeight⟩ ⟨floorWidth, floorLength⟩ floorArea).debugInfo
        = some info
      ∧ info.repeatX = some (floorWidth / tileWidth)
      ∧ info.repeatY = some (floorLength / tileHeight)
      ∧ info.tilesNeeded
          = some ((⌈floorWidth / tileWidth * (floorLength / tileHeight)⌉ : ℤ) : ℚ)
      ∧ info.tilesArea
          = some (floorWidth / tileWidth * (floorLength / tileHeight)
              * (tileWidth * tileHeight)) := by
  refine ⟨_, rfl, ?_, ?_, ?_, ?_⟩ <;>
    simp [jsDiv, jsMul, jsCeil, htw, hth]

theorem ceil_21 : (⌈(21 / 2 : ℚ) / 2 * (8 / 2)⌉ : ℤ) = 21 := by
  rw [Int.ceil_eq_iff]
  norm_num

theorem ceil_20 : (⌈(10 : ℚ) / 2 * (8 / 2)⌉ : ℤ) = 20 := by
  rw [Int.ceil_eq_iff]
  norm_num

theorem ceil_21_4 : (⌈(21 / 2 : ℚ) / 2⌉ : ℤ) = 6 := by
  rw [Int.ceil_eq_iff]
  norm_num

theorem ceil_8_2 : (⌈(8 : ℚ) / 2⌉ : ℤ) = 4 := by
  rw [Int.ceil_eq_iff]
  norm_num

/-- C9 as stated fails: for floor `10.5 × 8` and tile `2 × 2` the reported
tiles-needed value is 21, while `ceil(repeatX) × ceil(repeatY)` is 24. -/
theorem tilesNeeded_ne_ceil_product :
    ∃ info, (selectRepeat (some "floor") (tileDesign 2 2) ⟨21 / 2, 8⟩ none).debugInfo = some info
      ∧ displayedTotalTiles info = some 21
      ∧ jsMul (jsCeil info.repeatX) (jsCeil info.repeatY) = some 24
      ∧ info.tilesNeeded ≠ jsMul (jsCeil info.repeatX) (jsCeil info.repeatY) := by
  rw [selectRepeat_floor (tileDesign 2 2) ⟨2, 2⟩ _ _ rfl (by norm_num)]
  obtain ⟨info, hinfo, hx, hy, hneeded, _⟩ :=
    floorRepeat_debugInfo (21 / 2) 8 2 2 none (by norm_num) (by norm_num)
  have h21 : info.tilesNeeded = some 21 := by rw [hneeded, ceil_21]; norm_num
  have h24 : jsMul (jsCeil info.repeatX) (jsCeil info.repeatY) = some 24 := by
    rw [hx, hy]
    simp only [jsCeil, jsMul, Option.map_some', Option.some_bind, ceil_21_4, ceil_8_2]
    norm_num
  refine ⟨info, hinfo, h21, h24, ?_⟩
  rw [h21, h24]
  norm_num

/-- C9, amended: for every floor apply with non-zero tile size the reported
tiles-needed value, shown as "Total Tiles", is `ceil(repeatX × repeatY)`, the
ceiling of the product of the unrounded repeats, while the line "Needed"
shows `ceil(repeatX)` and `ceil(repeatY)`; for floor `10.5 × 8` and tile
`2 × 2` the value is 21, for floor `10 × 8` with the same tile it is 20. -/
theorem tilesNeeded_eq_ceil_of_product (floorWidth floorLength tileWidth tileHeight : ℚ)
    (name image : String) (floorArea : Option ℚ) (hw : floorWidth > 0)
    (htw : tileWidth ≠ 0) (hth : tileHeight ≠ 0) :
    (∃ info, (selectRepeat (some "floor") ⟨name, image, some ⟨tileWidth, tileHeight⟩⟩
          ⟨floorWidth, floorLength⟩ floorArea).debugInfo = some info
      ∧ displayedTotalTiles info
          = some ((⌈floorWidth / tileWidth * (floorLength / tileHeight)⌉ : ℤ) : ℚ)
      ∧ displayedNeeded info
          = (some ((⌈floorWidth / tileWidth⌉ : ℤ) : ℚ),
             some ((⌈floorLength / tileHeight⌉ : ℤ) : ℚ)))
    ∧ (∃ info, (selectRepeat (some "floor") (tileDesign 2 2) ⟨21 / 2, 8⟩ floorArea).debugInfo
          = some info ∧ displayedTotalTiles info = some 21)
    ∧ (∃ info, (selectRepeat (some "floor") (tileDesign 2 2) ⟨10, 8⟩ floorArea).debugInfo
          = some info ∧ displayedTotalTiles info = some 20) := by
  refine ⟨?_, ?_, ?_⟩
  · rw [selectRepeat_floor _ ⟨tileWidth, tileHeight⟩ _ _ rfl hw]
    obtain ⟨info, hinfo, hx, hy, hneeded, _⟩ :=
      floorRepeat_debugInfo floorWidth floorLength tileWidth tileHeight floorArea htw hth
    refine ⟨info, hinfo, hneeded, ?_⟩
    simp [displayedNeeded, hx, hy, jsCeil]
  · rw [selectRepeat_floor (tileDesign 2 2) ⟨2, 2⟩ _ _ rfl (by norm_num)]
    obtain ⟨info, hinfo, _, _, hneeded, _⟩ :=
      floorRepeat_debugInfo (21 / 2) 8 2 2 floorArea (by norm_num) (by norm_num)
    refine ⟨info, hinfo, ?_⟩
    rw [displayedTotalTiles, hneeded, ceil_21]
    norm_num
  · rw [selectRepeat_floor (tileDesign 2 2) ⟨2, 2⟩ _ _ rfl (by norm_num)]
    obtain ⟨info, hinfo, _, _, hneeded, _⟩ :=
      floorRepeat_debugInfo 10 8 2 2 floorArea (by norm_num) (by norm_num)
    refine ⟨info, hinfo, ?_⟩
    rw [displayedTotalTiles, hneeded, ceil_20]
    norm_num

/-- Witness of the amended C9: floor `10 × 8`, tile `2 × 2`. -/
theorem tilesNeeded_eq_ceil_of_product_witness :
    (10 : ℚ) > 0 ∧ (2 : ℚ) ≠ 0
    ∧ ∃ info, (selectRepeat (some "floor") (tileDesign 2 2) ⟨10, 8⟩ none).debugInfo = some info
        ∧ displayedTotalTiles info = some 20 :=
  ⟨by norm_num, by norm_num,
    (tilesNeeded_eq_ceil_of_product 10 8 2 2 "Marble" "/designs/QUINCY BROWN_F1.jpg" none
      (by norm_num) (by norm_num) (by norm_num)).2.2⟩

/-- C10: for every floor apply with positive floor width, tile width and tile
height (and any floor length, positive ones included), the reported
tiles-needed count times the tile area is at least the reported tiles-area,
which is computed from the unrounded repeats and equals
`floorWidth × floorLength`. -/
theorem tilesNeeded_covers_floor (floorWidth floorLength tileWidth tileHeight : ℚ)
    (name image : String) (floorArea : Option ℚ) (hw : floorWidth > 0)
    (htw : tileWidth > 0) (hth : tileHeight > 0) :
    ∃ info tilesNeeded tilesArea,
      (selectRepeat (some "floor") ⟨name, image, some ⟨tileWidth, tileHeight⟩⟩
          ⟨floorWidth, floorLength⟩ floorArea).debugInfo = some info
      ∧ info.tilesNeeded = some tilesNeeded
      ∧ info.tilesArea = some tilesArea
      ∧ info.tilesArea = jsMul (jsMul info.repeatX info.repeatY) (some (tileWidth * tileHeight))
      ∧ tilesNeeded * tileWidth * tileHeight ≥ tilesArea
      ∧ tilesArea = floorWidth * floorLength := by
  rw [selectRepeat_floor _ ⟨tileWidth, tileHeight⟩ _ _ rfl hw]
  obtain ⟨info, hinfo, hx, hy, hneeded, harea⟩ :=
    floorRepeat_debugInfo floorWidth floorLength tileWidth tileHeight floorArea
      (ne_of_gt htw) (ne_of_gt hth)
  refine ⟨info, _, _, hinfo, hneeded, harea, ?_, ?_, ?_⟩
  · rw [harea, hx, hy]
    rfl
  · have hceil := Int.le_ceil (floorWidth / tileWidth * (floorLength / tileHeight))
    have hpos : 0 < tileWidth * tileHeight := mul_pos htw hth
    calc floorWidth / tileWidth * (floorLength / tileHeight) * (tileWidth * tileHeight)
        ≤ ((⌈floorWidth / tileWidth * (floorLength / tileHeight)⌉ : ℤ) : ℚ)
            * (tileWidth * tileHeight) := mul_le_mul_of_nonneg_right hceil (le_of_lt hpos)
      _ = ((⌈floorWidth / tileWidth * (floorLength / tileHeight)⌉ : ℤ) : ℚ)
            * tileWidth * tileHeight := by ring
  · field_simp

/-- Witness of C10: floor `10.5 × 8`, tile `2 × 2`. -/
theorem tilesNeeded_covers_floor_witness :
    (21 / 2 : ℚ) > 0 ∧ (8 : ℚ) > 0 ∧ (2 : ℚ) > 0
    ∧ ∃ info tilesNeeded tilesArea,
        (selectRepeat (some "floor") (tileDesign 2 2) ⟨21 / 2, 8⟩ none).debugInfo = some info
        ∧ info.tilesNeeded = some tilesNeeded
        ∧ info.tilesArea = some tilesArea
        ∧ tilesNeeded * 2 * 2 ≥ tilesArea
        ∧ tilesArea = 21 / 2 * 8 := by
  refine ⟨by norm_num, by norm_num, by norm_num, ?_⟩
  obtain ⟨info, t, a, h1, h2, h3, _, h5, h6⟩ :=
    tilesNeeded_covers_floor (21 / 2) 8 2 2 "Marble" "/designs/QUINCY BROWN_F1.jpg" none
      (by norm_num) (by norm_num) (by norm_num)
  exact ⟨info, t, a, h1, h2, h3, h5, h6⟩

/-! ## Default repeat -/

/-- Outside the computed-floor branch the repeat selection is the `else`
branch. -/
theorem selectRepeat_eq_defaultRepeat (meshType : Option String) (design : Design)
    (floorDimensions : FloorDimensions) (floorArea : Option ℚ)
    (hnot : ¬ (meshType = some "floor" ∧ design.dimensions ≠ none
      ∧ floorDimensions.width > 0)) :
    selectRepeat meshType design floorDimensions floorArea = defaultRepeat meshType := by
  unfold selectRepeat
  by_cases hfloor : meshType = some "floor"
  · rw [if_pos hfloor]
    cases hd : design.dimensions with
    | none => rfl
    | some dimensions =>
      have hw : ¬ floorDimensions.width > 0 := fun hw =>
        hnot ⟨hfloor, by rw [hd]; exact Option.some_ne_none _, hw⟩
      simp only [if_neg hw]
  · rw [if_neg hfloor]

theorem defaultRepeat_wall : defaultRepeat (some "wall") = ⟨some 2, some 2, none⟩ := by
  simp [defaultRepeat, MESH_REPEAT_MAP]

theorem defaultRepeat_sofa : defaultRepeat (some "sofa") = ⟨some 1, some 1, none⟩ := by
  simp [defaultRepeat, MESH_REPEAT_MAP]

theorem defaultRepeat_curtain : defaultRepeat (some "curtain") = ⟨some 5, some 5, none⟩ := by
  simp [defaultRepeat, MESH_REPEAT_MAP]

theorem defaultRepeat_absent (meshType : Option String) (hwall : meshType ≠ some "wall")
    (hsofa : meshType ≠ some "sofa") (hcurtain : meshType ≠ some "curtain") :
    defaultRepeat meshType = ⟨some 1, some 1, none⟩ := by
  cases meshType with
  | none => simp [defaultRepeat]
  | some t =>
    have h1 : t ≠ "wall" := fun h => hwall (by rw [h])
    have h2 : t ≠ "sofa" := fun h => hsofa (by rw [h])
    have h3 : t ≠ "curtain" := fun h => hcurtain (by rw [h])
    simp [defaultRepeat, MESH_REPEAT_MAP, h1, h2, h3]

/-- The type strings that a read of `MESH_TYPE_MAP` can give. -/
theorem typeString_MESH_TYPE_MAP (name : String) :
    (MESH_TYPE_MAP name).typeString = none
    ∨ (MESH_TYPE_MAP name).typeString = some "floor"
    ∨ (MESH_TYPE_MAP name).typeString = some "wall"
    ∨ (MESH_TYPE_MAP name).typeString = some "sofa"
    ∨ (MESH_TYPE_MAP name).typeString = some "curtain" := by
  unfold MESH_TYPE_MAP
  split_ifs <;> simp [MeshTypeValue.typeString]

/-- C11: when an apply on the mesh called `name` does not take the
computed-floor branch, no debug information is set and the repeat is the
table value of the mesh's semantic type: wall (2,2), sofa (1,1), curtain
(5,5), and (1,1) for every type absent from the table; a floor design applied
while the cached floor width is 0, and a floor design without tile
dimensions, get (1,1). -/
theorem selectRepeat_default_table (name : String) (design : Design)
    (floorDimensions : FloorDimensions) (floorArea : Option ℚ)
    (hnot : ¬ ((MESH_TYPE_MAP name).typeString = some "floor" ∧ design.dimensions ≠ none
      ∧ floorDimensions.width > 0)) :
    (let meshType := (MESH_TYPE_MAP name).typeString
     let r := selectRepeat meshType design floorDimensions floorArea
     r.debugInfo = none
     ∧ (meshType = some "wall" → r.repeatX = some 2 ∧ r.repeatY = some 2)
     ∧ (meshType = some "sofa" → r.repeatX = some 1 ∧ r.repeatY = some 1)
     ∧ (meshType = some "curtain" → r.repeatX = some 5 ∧ r.repeatY = some 5)
     ∧ (meshType ≠ some "wall" → meshType ≠ some "sofa" → meshType ≠ some "curtain" →
          r.repeatX = some 1 ∧ r.repeatY = some 1))
    ∧ (∀ (floorDesign : Design) (floorLength : ℚ),
        (selectRepeat (some "floor") floorDesign ⟨0, floorLength⟩ floorArea).repeatX = some 1
        ∧ (selectRepeat (some "floor") floorDesign ⟨0, floorLength⟩ floorArea).repeatY = some 1)
    ∧ (∀ (designName image : String) (cached : FloorDimensions),
        (selectRepeat (some "floor") ⟨designName, image, none⟩ cached floorArea).repeatX = some 1
        ∧ (selectRepeat (some "floor") ⟨designName, image, none⟩ cached floorArea).repeatY
            = some 1) := by
  have hfloor : defaultRepeat (some "floor") = ⟨some 1, some 1, none⟩ :=
    defaultRepeat_absent _ (by decide) (by decide) (by decide)
  refine ⟨?_, ?_, ?_⟩
  · simp only
    rw [selectRepeat_eq_defaultRepeat _ design floorDimensions floorArea hnot]
    refine ⟨rfl, ?_, ?_, ?_, ?_⟩
    · intro h
      rw [h, defaultRepeat_wall]
      exact ⟨rfl, rfl⟩
    · intro h
      rw [h, defaultRepeat_sofa]
      exact ⟨rfl, rfl⟩
    · intro h
      rw [h, defaultRepeat_curtain]
      exact ⟨rfl, rfl⟩
    · intro h1 h2 h3
      rw [defaultRepeat_absent _ h1 h2 h3]
      exact ⟨rfl, rfl⟩
  · intro floorDesign floorLength
    rw [selectRepeat_eq_defaultRepeat _ floorDesign ⟨0, floorLength⟩ floorArea
      (fun h => lt_irrefl (0 : ℚ) h.2.2), hfloor]
    exact ⟨rfl, rfl⟩
  · intro designName image cached
    rw [selectRepeat_eq_defaultRepeat _ ⟨designName, image, none⟩ cached floorArea
      (fun h => h.2.1 rfl), hfloor]
    exact ⟨rfl, rfl⟩

/-- Witness of C11: a wall design applied to the mesh `Cube022`. -/
theorem selectRepeat_default_table_witness :
    ¬ ((MESH_TYPE_MAP "Cube022").typeString = some "floor"
        ∧ (⟨"Marble", "/designs/QUINCY BROWN_F1.jpg", none⟩ : Design).dimensions ≠ none
        ∧ (⟨0, 0⟩ : FloorDimensions).width > 0)
    ∧ (selectRepeat (MESH_TYPE_MAP "Cube022").typeString
          ⟨"Marble", "/designs/QUINCY BROWN_F1.jpg", none⟩ ⟨0, 0⟩ none).repeatX = some 2
    ∧ (selectRepeat (MESH_TYPE_MAP "Cube022").typeString
          ⟨"Marble", "/designs/QUINCY BROWN_F1.jpg", none⟩ ⟨0, 0⟩ none).repeatY = some 2 :=
  have hnot : ¬ ((MESH_TYPE_MAP "Cube022").typeString = some "floor"
        ∧ (⟨"Marble", "/designs/QUINCY BROWN_F1.jpg", none⟩ : Design).dimensions ≠ none
        ∧ (⟨0, 0⟩ : FloorDimensions).width > 0) := fun h => h.2.1 rfl
  ⟨hnot,
    ((selectRepeat_default_table "Cube022" ⟨"Marble", "/designs/QUINCY BROWN_F1.jpg", none⟩
      ⟨0, 0⟩ none hnot).1.2.1 (by decide)).1,
    ((selectRepeat_default_table "Cube022" ⟨"Marble", "/designs/QUINCY BROWN_F1.jpg", none⟩
      ⟨0, 0⟩ none hnot).1.2.1 (by decide)).2⟩

/-! ## Positivity of the repeat -/

theorem mem_catalogDesigns_dimensions (design : Design) (h : design ∈ catalogDesigns) :
    design.dimensions = none ∨ design.dimensions = some ⟨2, 2⟩
    ∨ design.dimensions = some ⟨2, 4⟩ ∨ design.dimensions = some ⟨1, 1⟩ := by
  have hfloor : DESIGN_OPTIONS "floor"
      = [⟨"Marble", "/designs/QUINCY BROWN_F1.jpg", some ⟨2, 2⟩⟩,
         ⟨"Wood", "/designs/tiles11.jpg", some ⟨2, 4⟩⟩,
         ⟨"Tiles", "/designs/tile1.jpg", some ⟨1, 1⟩⟩] := rfl
  have hwall : ∀ d ∈ DESIGN_OPTIONS "wall", d.dimensions = none := by
    intro d hd
    simp only [DESIGN_OPTIONS, String.reduceEq, if_true, if_false, List.mem_cons,
      List.mem_singleton, List.not_mem_nil, or_false] at hd
    rcases hd with hd | hd | hd <;> rw [hd]
  have hsofa : ∀ d ∈ DESIGN_OPTIONS "sofa", d.dimensions = none := by
    intro d hd
    simp only [DESIGN_OPTIONS, String.reduceEq, if_true, if_false, List.mem_cons,
      List.mem_singleton, List.not_mem_nil, or_false] at hd
    rcases hd with hd | hd | hd <;> rw [hd]
  have hcurtain : ∀ d ∈ DESIGN_OPTIONS "curtain", d.dimensions = none := by
    intro d hd
    simp only [DESIGN_OPTIONS, String.reduceEq, if_true, if_false, List.mem_cons,
      List.mem_singleton, List.not_mem_nil, or_false] at hd
    rcases hd with hd | hd | hd <;> rw [hd]
  simp only [catalogDesigns, List.mem_append] at h
  rcases h with ((h | h) | h) | h
  · rw [hfloor] at h
    simp only [List.mem_cons, List.mem_singleton, List.not_mem_nil, or_false] at h
    rcases h with h | h | h <;> rw [h] <;> simp
  · exact Or.inl (hwall _ h)
  · exact Or.inl (hsofa _ h)
  · exact Or.inl (hcurtain _ h)

theorem floorRepeat_pos (dimensions : TileDimensions) (floorDimensions : FloorDimensions)
    (floorArea : Option ℚ) (htw : 0 < dimensions.width) (hth : 0 < dimensions.height)
    (hw : 0 < floorDimensions.width) (hl : 0 < floorDimensions.length) :
    ∃ x y : ℚ, (floorRepeat dimensions floorDimensions floorArea).repeatX = some x
      ∧ (floorRepeat dimensions floorDimensions floorArea).repeatY = some y
      ∧ 0 < x ∧ 0 < y :=
  ⟨floorDimensions.width / dimensions.width, floorDimensions.length / dimensions.height,
    jsDiv_of_ne_zero _ _ (ne_of_gt htw), jsDiv_of_ne_zero _ _ (ne_of_gt hth),
    div_pos hw htw, div_pos hl hth⟩

theorem defaultRepeat_pos (meshType : Option String) :
    ∃ x y : ℚ, (defaultRepeat meshType).repeatX = some x
      ∧ (defaultRepeat meshType).repeatY = some y ∧ 0 < x ∧ 0 < y := by
  by_cases h1 : meshType = some "wall"
  · rw [h1, defaultRepeat_wall]
    exact ⟨2, 2, rfl, rfl, by norm_num, by norm_num⟩
  by_cases h2 : meshType = some "sofa"
  · rw [h2, defaultRepeat_sofa]
    exact ⟨1, 1, rfl, rfl, by norm_num, by norm_num⟩
  by_cases h3 : meshType = some "curtain"
  · rw [h3, defaultRepeat_curtain]
    exact ⟨5, 5, rfl, rfl, by norm_num, by norm_num⟩
  rw [defaultRepeat_absent _ h1 h2 h3]
  exact ⟨1, 1, rfl, rfl, by norm_num, by norm_num⟩

/-- With a catalog design the repeat is finite and positive as soon as the
cached floor length is positive (the width being checked by the branch). -/
theorem selectRepeat_pos_of_length_pos (name : String) (design : Design)
    (floorDimensions : FloorDimensions) (floorArea : Option ℚ)
    (hdesign : design ∈ catalogDesigns) (hlength : 0 < floorDimensions.length) :
    ∃ x y : ℚ,
      (selectRepeat (MESH_TYPE_MAP name).typeString design floorDimensions floorArea).repeatX
        = some x
      ∧ (selectRepeat (MESH_TYPE_MAP name).typeString design floorDimensions floorArea).repeatY
        = some y
      ∧ 0 < x ∧ 0 < y := by
  by_cases hbranch : (MESH_TYPE_MAP name).typeString = some "floor" ∧ design.dimensions ≠ none
      ∧ floorDimensions.width > 0
  · obtain ⟨hfloor, _, hw⟩ := hbranch
    rw [hfloor]
    rcases mem_catalogDesigns_dimensions design hdesign with hd | hd | hd | hd
    · exact absurd hd (by tauto)
    all_goals
      rw [selectRepeat_floor design _ floorDimensions floorArea hd hw]
      exact floorRepeat_pos _ _ _ (by norm_num) (by norm_num) hw hlength
  · rw [selectRepeat_eq_defaultRepeat _ design floorDimensions floorArea hbranch]
    exact defaultRepeat_pos _

/-- C12, evaluated where it fails: with cached floor dimensions
`{width: 10, length: 0}`, a pick of the floor mesh `Cube017` followed by an
apply of the catalog design Marble (tile `2 × 2`) takes the computed-floor
branch, whose only check is `width > 0`, and writes the repeat `(5, 0)`: the
second component is not positive. -/
theorem appliedRepeat_zero_length_floor :
    tileDesign 2 2 ∈ DESIGN_OPTIONS "floor"
    ∧ (measuredState 10 0).floorDimensions.width ≥ 0
    ∧ (measuredState 10 0).floorDimensions.length ≥ 0
    ∧ ∃ request,
        (handleApplyDesign (handleSelect (measuredState 10 0) (meshNamed "Cube017"))
          (tileDesign 2 2)).2 = some request
        ∧ (appliedRepeat (handleSelect (measuredState 10 0) (meshNamed "Cube017"))
            request).repeatX = some 5
        ∧ (appliedRepeat (handleSelect (measuredState 10 0) (meshNamed "Cube017"))
            request).repeatY = some 0
        ∧ ¬ ∃ y : ℚ, (appliedRepeat (handleSelect (measuredState 10 0) (meshNamed "Cube017"))
            request).repeatY = some y ∧ 0 < y := by
  have hpick : handleSelect (measuredState 10 0) (meshNamed "Cube017")
      = { measuredState 10 0 with
          modal := ⟨true, some (meshNamed "Cube017"), some (.type "floor")⟩
          lastSelectedMesh := some (meshNamed "Cube017") } := by
    simp [handleSelect, MESH_TYPE_MAP, meshNamed, MeshTypeValue.truthy]
  have hrep : appliedRepeat (handleSelect (measuredState 10 0) (meshNamed "Cube017"))
      ⟨tileDesign 2 2, meshNamed "Cube017"⟩
      = floorRepeat ⟨2, 2⟩ ⟨10, 0⟩ (some (10 * 0)) := by
    rw [hpick]
    simp only [appliedRepeat, meshNamed, MESH_TYPE_MAP, if_true, MeshTypeValue.typeString,
      measuredState, initialState]
    exact selectRepeat_floor (tileDesign 2 2) ⟨2, 2⟩ _ _ rfl (by norm_num)
  refine ⟨by simp [DESIGN_OPTIONS, tileDesign], by norm_num [measuredState],
    by norm_num [measuredState], ⟨tileDesign 2 2, meshNamed "Cube017"⟩, ?_, ?_, ?_, ?_⟩
  · rw [hpick]
    rfl
  · rw [hrep]
    norm_num [floorRepeat, jsDiv]
  · rw [hrep]
    norm_num [floorRepeat, jsDiv]
  · rw [hrep]
    rintro ⟨y, hy, hpos⟩
    norm_num [floorRepeat, jsDiv] at hy
    rw [← hy] at hpos
    exact lt_irrefl _ hpos

/-! ## Selection state machine -/

/-- A name that is neither written in the table nor inherited from
`Object.prototype` is looked up as `undefined`. -/
theorem MESH_TYPE_MAP_undefined (name : String) (hkey : name ∉ MESH_TYPE_KEYS)
    (hproto : name ∉ objectPrototypeKeys) : MESH_TYPE_MAP name = .undefined := by
  simp only [MESH_TYPE_KEYS, List.mem_cons, List.mem_singleton, List.not_mem_nil, or_false,
    not_or] at hkey
  obtain ⟨h1, h2, h3, h4, h5⟩ := hkey
  simp [MESH_TYPE_MAP, h1, h2, h3, h4, h5, hproto]

/-- A pick whose lookup is `undefined` closes the design surface and clears
the remembered mesh, and a following apply returns at once: same state, no
texture load started. -/
theorem handleSelect_undefined_then_apply (s : AppState) (mesh : Mesh) (design : Design)
    (h : MESH_TYPE_MAP mesh.name = .undefined) :
    handleSelect s mesh = { s with modal := ⟨false, none, none⟩, lastSelectedMesh := none }
    ∧ handleApplyDesign (handleSelect s mesh) design = (handleSelect s mesh, none) := by
  have hpick : handleSelect s mesh
      = { s with modal := ⟨false, none, none⟩, lastSelectedMesh := none } := by
    simp [handleSelect, h, MeshTypeValue.truthy]
  refine ⟨hpick, ?_⟩
  rw [hpick]
  rfl

/-- A pick of the mesh `Cube022` resolves to the type wall, opens the design
surface and remembers the mesh. -/
theorem handleSelect_Cube022 (s : AppState) (geometry : BufferGeometry) :
    handleSelect s ⟨"Cube022", geometry⟩
      = { s with
          modal := ⟨true, some ⟨"Cube022", geometry⟩, some (.type "wall")⟩
          lastSelectedMesh := some ⟨"Cube022", geometry⟩ } := by
  simp [handleSelect, MESH_TYPE_MAP, MeshTypeValue.truthy]

/-- C13, evaluated where it fails: a mesh named `toString`, which is not a
key written in the name table, is looked up as the function every object
inherits under that name; the value is truthy, so the pick opens the design
surface and remembers the mesh, and a following apply starts a texture load
for that mesh and gives it the default repeat `(1, 1)`.  A pick of `Cube022`
resolves to wall and opens the design surface, as the claim says. -/
theorem handleSelect_inherited_name_proceeds (s : AppState) (geometry : BufferGeometry)
    (design : Design) :
    ((handleSelect s ⟨"Cube022", geometry⟩).modal.opened = true
      ∧ (handleSelect s ⟨"Cube022", geometry⟩).modal.meshType = some (.type "wall"))
    ∧ "toString" ∉ MESH_TYPE_KEYS
    ∧ MESH_TYPE_MAP "toString" = .inherited "toString"
    ∧ (handleSelect s ⟨"toString", geometry⟩).modal.opened = true
    ∧ (handleSelect s ⟨"toString", geometry⟩).lastSelectedMesh = some ⟨"toString", geometry⟩
    ∧ (handleApplyDesign (handleSelect s ⟨"toString", geometry⟩) design).2
        = some ⟨design, ⟨"toString", geometry⟩⟩
    ∧ (appliedRepeat (handleSelect s ⟨"toString", geometry⟩)
        ⟨design, ⟨"toString", geometry⟩⟩).repeatX = some 1
    ∧ (appliedRepeat (handleSelect s ⟨"toString", geometry⟩)
        ⟨design, ⟨"toString", geometry⟩⟩).repeatY = some 1 := by
  have hlook : MESH_TYPE_MAP "toString" = .inherited "toString" := by
    simp [MESH_TYPE_MAP, objectPrototypeKeys]
  have hpick : handleSelect s ⟨"toString", geometry⟩
      = { s with
          modal := ⟨true, some ⟨"toString", geometry⟩, some (.inherited "toString")⟩
          lastSelectedMesh := some ⟨"toString", geometry⟩ } := by
    simp [handleSelect, hlook, MeshTypeValue.truthy]
  have hrep : appliedRepeat (handleSelect s ⟨"toString", geometry⟩)
      ⟨design, ⟨"toString", geometry⟩⟩ = defaultRepeat none := by
    simp only [appliedRepeat, hlook, MeshTypeValue.typeString]
    exact selectRepeat_eq_defaultRepeat none design _ _ (fun h => Option.noConfusion h.1)
  refine ⟨?_, by simp [MESH_TYPE_KEYS], hlook, ?_, ?_, ?_, ?_, ?_⟩
  · rw [handleSelect_Cube022]
    exact ⟨rfl, rfl⟩
  · rw [hpick]
  · rw [hpick]
  · rw [hpick]
    rfl
  · rw [hrep]
    rfl
  · rw [hrep]
    rfl

/-! ## Re-triangulation in double precision -/

theorem calculateMeshAreaDouble_slant_two :
    calculateMeshAreaDouble (doubleTwoTriangles slantA slantB slantC slantD)
      = some ⟨7599824182444032, -50⟩ := by
  decide

theorem calculateMeshAreaDouble_slant_four :
    calculateMeshAreaDouble (doubleFourTriangles slantA slantB slantC slantD slantP)
      = some ⟨7599824182444033, -50⟩ := by
  decide

theorem calculateMeshAreaDouble_unit_two :
    calculateMeshAreaDouble (doubleTwoTriangles unitA unitB unitC unitD) = some ⟨2, -1⟩ := by
  decide

set_option maxRecDepth 8000 in
theorem calculateMeshAreaDouble_unit_four :
    calculateMeshAreaDouble (doubleFourTriangles unitA unitB unitC unitD unitP)
      = some ⟨4503599627370497, -52⟩ := by
  decide

/-- In exact arithmetic both triangulations of the slanted quadrilateral
measure `60798593459552261 / 2^53`, which lies between the two
double-precision results. -/
theorem calculateMeshArea_slant_exact :
    calculateMeshArea (quadTwoTriangles slantA.toVector3 slantB.toVector3 slantC.toVector3
        slantD.toVector3) = some (60798593459552261 / 9007199254740992)
    ∧ calculateMeshArea (quadFourTriangles slantA.toVector3 slantB.toVector3
        slantC.toVector3 slantD.toVector3 slantP.toVector3)
        = some (60798593459552261 / 9007199254740992) := by
  constructor
  · rw [calculateMeshArea_eq_spec _ rfl (by simp [TriangleMesh, quadTwoTriangles])]
    norm_num [triangleVertices, quadTwoTriangles, specTriplesArea, specTriangleArea,
      DoubleVector3.toVector3, Double.toRat, slantA, slantB, slantC, slantD, floorPoint,
      abs_of_nonneg]
  · rw [calculateMeshArea_eq_spec _ rfl (by simp [TriangleMesh, quadFourTriangles])]
    norm_num [triangleVertices, quadFourTriangles, specTriplesArea, specTriangleArea,
      DoubleVector3.toVector3, Double.toRat, slantA, slantB, slantC, slantD, slantP,
      floorPoint, abs_of_nonneg]

/-- C3 as stated fails in the arithmetic of the script.  The quadrilateral
`A = (2^-26, 3·2^-26)`, `B = (2, 5·2^-26)`, `C = (3, 3)`, `D = (1/2, 3)` is
convex and `P = (2, 2)` lies inside it, all coordinates being single-precision
numbers; in double precision the 2-triangle mesh measures
`1811939283 / 2^28` and the 4-triangle mesh measures one unit in the last
place more.  Likewise the unit square with `P` at the doubles `0.2`, `0.4`
measures `1` as 2 triangles and `1 + 2^-52` as 4 triangles.  In exact
arithmetic the two meshes of the first quadrilateral measure the same. -/
theorem calculateMeshAreaDouble_retriangulation_differs :
    ConvexQuad slantA.toVector3 slantB.toVector3 slantC.toVector3 slantD.toVector3
    ∧ InsideQuad slantA.toVector3 slantB.toVector3 slantC.toVector3 slantD.toVector3
        slantP.toVector3
    ∧ (calculateMeshAreaDouble (doubleTwoTriangles slantA slantB slantC slantD)).map Double.toRat
        = some (1811939283 / 268435456)
    ∧ (calculateMeshAreaDouble
          (doubleFourTriangles slantA slantB slantC slantD slantP)).map Double.toRat
        = some (7599824182444033 / 1125899906842624)
    ∧ (calculateMeshAreaDouble (doubleTwoTriangles slantA slantB slantC slantD)).map Double.toRat
        ≠ (calculateMeshAreaDouble
            (doubleFourTriangles slantA slantB slantC slantD slantP)).map Double.toRat
    ∧ ConvexQuad unitA.toVector3 unitB.toVector3 unitC.toVector3 unitD.toVector3
    ∧ InsideQuad unitA.toVector3 unitB.toVector3 unitC.toVector3 unitD.toVector3
        unitP.toVector3
    ∧ (calculateMeshAreaDouble (doubleTwoTriangles unitA unitB unitC unitD)).map Double.toRat
        = some 1
    ∧ (calculateMeshAreaDouble
          (doubleFourTriangles unitA unitB unitC unitD unitP)).map Double.toRat
        = some (4503599627370497 / 4503599627370496)
    ∧ calculateMeshArea (quadTwoTriangles slantA.toVector3 slantB.toVector3 slantC.toVector3
        slantD.toVector3)
      = calculateMeshArea (quadFourTriangles slantA.toVector3 slantB.toVector3
        slantC.toVector3 slantD.toVector3 slantP.toVector3) := by
  rw [calculateMeshAreaDouble_slant_two, calculateMeshAreaDouble_slant_four,
    calculateMeshAreaDouble_unit_two, calculateMeshAreaDouble_unit_four,
    calculateMeshArea_slant_exact.1, calculateMeshArea_slant_exact.2]
  refine ⟨?_, ?_, ?_, ?_, ?_, ?_, ?_, ?_, ?_, rfl⟩
  · left
    norm_num [turn, DoubleVector3.toVector3, Double.toRat, slantA, slantB, slantC, slantD,
      floorPoint]
  · left
    norm_num [turn, DoubleVector3.toVector3, Double.toRat, slantA, slantB, slantC, slantD,
      slantP, floorPoint]
  · norm_num [Double.toRat]
  · norm_num [Double.toRat]
  · norm_num [Double.toRat]
  · left
    norm_num [turn, DoubleVector3.toVector3, Double.toRat, unitA, unitB, unitC, unitD,
      floorPoint]
  · left
    norm_num [turn, DoubleVector3.toVector3, Double.toRat, unitA, unitB, unitC, unitD,
      unitP, floorPoint]
  · norm_num [Double.toRat]
  · norm_num [Double.toRat]

/-! ## Classification without normal attribute -/

/-- C5 as stated fails: on an indexed mesh with one triangle (index count 3)
and no normal attribute the classification loop raises a `TypeError` at its
first read of a normal, so it produces no lists. -/
theorem classifyFaces_without_normals_raises :
    triangleWithoutNormals.index = some [0, 1, 2]
    ∧ [0, 1, 2].length = 3 * 1
    ∧ triangleWithoutNormals.normal = none
    ∧ classifyFaces triangleWithoutNormals = none
    ∧ ¬ ∃ topFaces sideFaces,
        classifyFaces triangleWithoutNormals = some (topFaces, sideFaces) := by
  have h : classifyFaces triangleWithoutNormals = none := by
    simp [classifyFaces, triangleWithoutNormals]
  refine ⟨rfl, rfl, rfl, h, ?_⟩
  rintro ⟨topFaces, sideFaces, hc⟩
  rw [h] at hc
  exact Option.noConfusion hc

end TilesVisualizer
